import Mathlib

unseal Rat.add Rat.mul Rat.sub Rat.inv Rat.ofScientific

/-!
Verification of the Ecommerce recommendation backend.

Shallow embedding of the recommendation pipeline and the RDM (decision
metric) scoring engine:
  * `src/backend/main.py`   — category classifier, tolerant JSON repair,
    retry/credential policy, candidate building, quality filter;
  * `src/backend/rdm_calculator.py` — spec extraction and RDM scoring.

Python strings are modelled as `String` / `List Char`, Python floats as `ℚ`
(exact rational arithmetic; the one transcendental operation, `math.log`,
is modelled with `Real.log`, which is why a few definitions are
`noncomputable`), Python `None` as `Option`.  Regular-expression searches
are modelled by direct leftmost-match scanning functions whose greedy /
backtracking behaviour mirrors Python's `re` on the pattern in question;
each is annotated with the pattern it implements.
-/

namespace Ecommerce

/-! ### String utilities

Python's `sub in s` substring test and `str.lower()`. -/

/-- Match the literal `lit` at the head of `text`; return the rest on success. -/
def litAt : List Char → List Char → Option (List Char)
  | [], t => some t
  | _ :: _, [] => none
  | l :: ls, t :: ts => if l == t then litAt ls ts else none

/-- Python's `needle in hay` substring containment. -/
def containsSub (needle : List Char) : List Char → Bool
  | [] => (litAt needle []).isSome
  | c :: t => (litAt needle (c :: t)).isSome || containsSub needle t

/-- `sub in s` on `String`s. -/
def strContains (s sub : String) : Bool := containsSub sub.data s.data

/-- Python `str.lower()` (ASCII titles only occur in the claims). -/
def lowerStr (s : String) : String := String.mk (s.data.map Char.toLower)

/-- Python `any(kw in t for kw in kws)`. -/
def anyKw (t : String) (kws : List String) : Bool := kws.any fun k => strContains t k

/-! ### Category classifier

`main.py`, `call_llm_for_product_names`, lines 434–511: an ordered
if/elif chain over the lowercased title; first match wins. -/

/-- The category-detection chain of `call_llm_for_product_names`
(`main.py` 434–511), applied to the already-lowercased title. -/
def detectCategory (t : String) : String :=
  if anyKw t ["table", "desk", "stand table", "workstation"] &&
     anyKw t ["laptop", "adjustable", "height", "foldable", "portable"] then
    "laptop table/desk"
  else if anyKw t ["backpack", "bag pack", "rucksack"] &&
     anyKw t ["laptop", "notebook", "macbook", "15", "16", "17"] then
    "laptop backpack"
  else if anyKw t ["case", "cover", "sleeve", "bag", "pouch", "holder"] &&
     anyKw t ["laptop", "notebook", "macbook"] then
    "laptop accessory"
  else if anyKw t ["case", "cover", "sleeve", "pouch", "holder", "protector"] &&
     anyKw t ["phone", "mobile", "iphone", "smartphone"] then
    "phone accessory"
  else if anyKw t ["charger", "adapter", "cable", "charging"] then
    "charger/cable"
  else if anyKw t ["stand", "mount", "holder"] && !anyKw t ["tv", "monitor"] then
    "stand/mount"
  else if anyKw t ["tablet", "ipad", "pad"] ||
      (anyKw t ["tab"] &&
       anyKw t ["idea", "galaxy", "mi", "lenovo", "samsung", "xiaomi", "realme",
                "kamvas", "slate", "smartchoice"]) then
    if anyKw t ["stand", "holder", "mount"] &&
       !anyKw t ["idea tab", "galaxy tab", "mi tab", "lenovo tab", "samsung tab",
                 "xiaomi tab", "realme tab", "kamvas", "slate", "smartchoice",
                 "pad", "xiaomi pad", "samsung pad", "mi pad"] then
      "stand/mount"
    else
      "tablet"
  else if anyKw t ["laptop", "notebook", "chromebook", "macbook"] then
    "laptop"
  else if anyKw t ["keyboard", "mechanical keyboard", "gaming keyboard"] then
    "keyboard"
  else if anyKw t ["mouse", "gaming mouse", "wireless mouse"] then
    "mouse"
  else if anyKw t ["phone", "smartphone", "mobile", "iphone"] then
    "smartphone"
  else if anyKw t ["speaker", "soundbar"] then
    "speaker"
  else if anyKw t ["earbuds", "headphones", "earphones", "airpods"] then
    "earbuds"
  else if anyKw t ["watch", "smartwatch"] then
    "smartwatch"
  else if anyKw t ["monitor", "display", "screen"] then
    "monitor"
  else
    "product"

/-- Category of an arbitrary-case title (`title_lower = product_title.lower()`). -/
def categoryOfTitle (title : String) : String := detectCategory (lowerStr title)

/-! ### Regex building blocks

Direct implementations of the leftmost-match scanning behaviour of
Python's `re.search` for the concrete patterns used by the backend.
`searchPos` tries a matcher at every start position, left to right,
exactly as `re.search` does. -/

/-- Try matcher `m` at every suffix, leftmost first (`re.search` scanning). -/
def searchPos (m : List Char → Option α) : List Char → Option α
  | [] => m []
  | c :: t =>
    match m (c :: t) with
    | some a => some a
    | none => searchPos m t

/-- Greedy `\d+` split: the maximal leading digit run and the rest. -/
def digitsSplit (l : List Char) : List Char × List Char :=
  (l.takeWhile Char.isDigit, l.dropWhile Char.isDigit)

/-- Greedy `\s*`. -/
def wsDrop (l : List Char) : List Char := l.dropWhile Char.isWhitespace

/-- `\s+`: at least one whitespace character, then greedily the rest. -/
def wsPlus : List Char → Option (List Char)
  | [] => none
  | c :: t => if c.isWhitespace then some (wsDrop t) else none

/-- `\d+`: nonempty greedy digit run, returning (digits, rest). -/
def digitsPlus (l : List Char) : Option (List Char × List Char) :=
  match digitsSplit l with
  | ([], _) => none
  | (d, r) => some (d, r)

/-- `int(...)` of a captured digit group. -/
def natOfDigits (d : List Char) : ℕ :=
  d.foldl (fun n c => 10 * n + (c.toNat - 48)) 0

/-- Take exactly `k` digits from the head, or fail (`\d{k}` at a position). -/
def takeDigits (k : ℕ) (l : List Char) : Option (List Char × List Char) :=
  let pre := l.take k
  if pre.length = k && pre.all Char.isDigit then some (pre, l.drop k) else none

/-- First `some` in a list of alternatives, in priority order. -/
def firstSome (l : List α) (f : α → Option β) : Option β := l.findSome? f

/-- Python `\w` (ASCII view): letters, digits and underscore. -/
def wordChar (c : Char) : Bool := c.isAlphanum || c == '_'

/-! ### Spec extraction (`rdm_calculator.py`, `extract_detailed_specs`, lines 37–139)

The extraction text is `f"{title} {' '.join(specs)}".lower()`, so all
matchers below run on lowercase text and the `re.IGNORECASE` flag is
subsumed by matching lowercase literals. -/

/-- Matcher for `(\d+)\s*gb\s*(?:ram|ddr)` at one position. -/
def ramAt (s : List Char) : Option ℕ := do
  let (d, r1) ← digitsPlus s
  let r2 ← litAt "gb".data (wsDrop r1)
  let r3 := wsDrop r2
  if (litAt "ram".data r3).isSome || (litAt "ddr".data r3).isSome then
    some (natOfDigits d)
  else none

/-- Matcher for `(\d+)\s*(tb|gb)\s*(?:ssd|hdd|storage|emmc)?` at one position;
returns (size, unit-is-tb).  The trailing optional group can never fail, so
it affects neither match success nor the captured groups and is omitted. -/
def storageAt (s : List Char) : Option (ℕ × Bool) := do
  let (d, r1) ← digitsPlus s
  let r2 := wsDrop r1
  match litAt "tb".data r2 with
  | some _ => some (natOfDigits d, true)
  | none =>
    match litAt "gb".data r2 with
    | some _ => some (natOfDigits d, false)
    | none => none

/-- Matcher for `(\d{3,5})\s*mah` at one position.  At a fixed start the
greedy bounded repeat succeeds iff the maximal digit run has length 3–5
(a shorter prefix leaves a digit, which neither `\s*` nor `m` can match);
`searchPos` supplies the restarts inside longer runs. -/
def batteryAt (s : List Char) : Option ℕ := do
  let (d, r1) ← digitsPlus s
  if 3 ≤ d.length && d.length ≤ 5 && (litAt "mah".data (wsDrop r1)).isSome then
    some (natOfDigits d)
  else none

/-- Matcher for `(\d{2,3})\s*whr` at one position (same reasoning as `batteryAt`). -/
def whrAt (s : List Char) : Option ℕ := do
  let (d, r1) ← digitsPlus s
  if 2 ≤ d.length && d.length ≤ 3 && (litAt "whr".data (wsDrop r1)).isSome then
    some (natOfDigits d)
  else none

/-- `int((whr * 1000) / 3.8)`: float division then truncation, modelled as
the exact rational `⌊whr·5000/19⌋` (Nat division; the float rounding of
`3.8` can differ from the exact value only by one unit at exact multiples,
and no claim depends on those values). -/
def whrToMah (whr : ℕ) : ℕ := whr * 5000 / 19

/-- Suffix `\s*(?:\"|inch|in)` of the display-size pattern. -/
def displaySuffixOk (r : List Char) : Bool :=
  let r' := wsDrop r
  (litAt ['"'] r').isSome || (litAt "inch".data r').isSome || (litAt "in".data r').isSome

/-- Matcher for `(\d{1,2}(?:\.\d{1,2})?)\s*(?:\"|inch|in)` at one position,
capturing `float(group 1)`.  Greedy order: 2 then 1 integer digits; the
optional fraction tries 2 then 1 digits then absence.  Giving back digits
inside a run can never rescue the literal suffix, so trying the full
greedy alternatives in order is exactly Python's backtracking. -/
def displayAt (s : List Char) : Option ℚ :=
  firstSome [2, 1] fun ik => do
    let (ip, r1) ← takeDigits ik s
    -- the fraction alternatives in greedy order: .dd, .d, none
    let fracCands : List (List Char × List Char) :=
      (match r1 with
       | '.' :: r2 =>
         ((takeDigits 2 r2).toList ++ (takeDigits 1 r2).toList)
       | _ => []) ++ [([], r1)]
    firstSome fracCands fun (fp, r3) =>
      if displaySuffixOk r3 then
        some ((natOfDigits ip : ℚ) + (natOfDigits fp : ℚ) / (10 : ℚ) ^ fp.length)
      else none

/-- `full\s*hd` somewhere in the text. -/
def fullHd (text : List Char) : Bool :=
  (searchPos (fun s => do
    let r ← litAt "full".data s
    litAt "hd".data (wsDrop r)) text).isSome

/-- Display-type cascade (`rdm_calculator.py` 83–91).  The last pattern
`hd\s*(ready)?|720` matches iff the text contains `hd` or `720`, since the
tail after `hd` is entirely optional. -/
def displayTypeOf (text : List Char) : Option String :=
  if containsSub "4k".data text || containsSub "uhd".data text then some "4K"
  else if containsSub "qhd".data text || containsSub "2k".data text then some "QHD"
  else if containsSub "fhd".data text || fullHd text || containsSub "1080".data text then some "FHD"
  else if containsSub "hd".data text || containsSub "720".data text then some "HD"
  else none

/-! Processor patterns (`rdm_calculator.py` 95–103).  Each matcher returns
the rest after the whole match; `searchSlice` turns that into the captured
slice (group 1 spans the whole pattern). -/

/-- Leftmost match of `m`, returning the matched slice. -/
def searchSlice (m : List Char → Option (List Char)) : List Char → Option (List Char)
  | [] => (m []).map fun r => ([] : List Char).take (0 - r.length)
  | c :: t =>
    match m (c :: t) with
    | some r => some ((c :: t).take ((c :: t).length - r.length))
    | none => searchSlice m t

/-- `snapdragon\s+\d+\s*(?:gen\s*\d+)?`: the trailing `\s*` stays consumed
even when the optional `gen` group fails (greedy, nothing forces give-back). -/
def snapdragonAt (s : List Char) : Option (List Char) := do
  let r1 ← litAt "snapdragon".data s
  let r2 ← wsPlus r1
  let (_, r3) ← digitsPlus r2
  let r4 := wsDrop r3
  match (do
      let g1 ← litAt "gen".data r4
      let (_, g2) ← digitsPlus (wsDrop g1)
      some g2 : Option (List Char)) with
  | some g2 => some g2
  | none => some r4

/-- `mediatek\s+dimensity\s*\d+`. -/
def mtkDimensityAt (s : List Char) : Option (List Char) := do
  let r1 ← litAt "mediatek".data s
  let r2 ← wsPlus r1
  let r3 ← litAt "dimensity".data r2
  let (_, r4) ← digitsPlus (wsDrop r3)
  some r4

/-- Index of the last digit in a list, if any. -/
def lastDigitIdx (l : List Char) : Option ℕ :=
  match l.reverse.findIdx? Char.isDigit with
  | some k => some (l.length - 1 - k)
  | none => none

/-- `mediatek\s+\w+\d+`: backtracking over the maximal `\w` run `w` makes
the match succeed iff `w` has a digit at some index `j ≥ 1`, consuming
`w` up to the last such digit. -/
def mtkGenericAt (s : List Char) : Option (List Char) := do
  let r1 ← litAt "mediatek".data s
  let r2 ← wsPlus r1
  let w := r2.takeWhile wordChar
  match lastDigitIdx w with
  | some j => if 1 ≤ j then some (r2.drop (j + 1)) else none
  | none => none

/-- `apple\s+[am]\d+`. -/
def appleAt (s : List Char) : Option (List Char) := do
  let r1 ← litAt "apple".data s
  let r2 ← wsPlus r1
  match r2 with
  | c :: t =>
    if c == 'a' || c == 'm' then do
      let (_, r3) ← digitsPlus t
      some r3
    else none
  | [] => none

/-- `intel\s+core\s+i\d+`. -/
def intelAt (s : List Char) : Option (List Char) := do
  let r1 ← litAt "intel".data s
  let r2 ← wsPlus r1
  let r3 ← litAt "core".data r2
  let r4 ← wsPlus r3
  let r5 ← litAt "i".data r4
  let (_, r6) ← digitsPlus r5
  some r6

/-- `amd\s+ryzen\s+\d+`. -/
def amdAt (s : List Char) : Option (List Char) := do
  let r1 ← litAt "amd".data s
  let r2 ← wsPlus r1
  let r3 ← litAt "ryzen".data r2
  let r4 ← wsPlus r3
  let (_, r5) ← digitsPlus r4
  some r5

/-- `exynos\s*\d+`. -/
def exynosAt (s : List Char) : Option (List Char) := do
  let r1 ← litAt "exynos".data s
  let (_, r2) ← digitsPlus (wsDrop r1)
  some r2

/-- The processor pattern cascade, first pattern with a hit wins
(`rdm_calculator.py` 104–108). -/
def processorOf (text : List Char) : Option (List Char) :=
  firstSome [snapdragonAt, mtkDimensityAt, mtkGenericAt, appleAt, intelAt,
             amdAt, exynosAt]
    fun m => searchSlice m text

/-- Matcher for `(\d+)\s*(year|yr)` at one position. -/
def warrantyAt (s : List Char) : Option ℕ := do
  let (d, r1) ← digitsPlus s
  let r2 := wsDrop r1
  if (litAt "year".data r2).isSome || (litAt "yr".data r2).isSome then
    some (natOfDigits d)
  else none

/-- Matcher for `(\d)\s*star` at one position (exactly one digit). -/
def energyAt (s : List Char) : Option ℕ :=
  match s with
  | c :: t =>
    if c.isDigit && (litAt "star".data (wsDrop t)).isSome then
      some (c.toNat - 48)
    else none
  | [] => none

/-- `calculate_performance_score` (`rdm_calculator.py` 142–173).  The
source upper-cases the captured processor string before substring tests;
the capture comes from already-lowercased text, so we test the lowercase
keywords instead (ASCII equivalent). -/
def calculatePerformanceScore (processor : Option (List Char)) (category : String) : ℕ :=
  match processor with
  | none => 50
  | some p =>
    if category == "smartphone" || category == "phone" then
      if containsSub "snapdragon 8".data p || containsSub "apple a1".data p ||
         containsSub "dimensity 9".data p then 95
      else if containsSub "snapdragon 7".data p || containsSub "dimensity 8".data p then 85
      else if containsSub "snapdragon 6".data p || containsSub "dimensity 7".data p then 75
      else if containsSub "snapdragon 4".data p || containsSub "dimensity 6".data p then 65
      else 60
    else if category == "laptop" then
      if containsSub "i9".data p || containsSub "ryzen 9".data p then 95
      else if containsSub "i7".data p || containsSub "ryzen 7".data p then 85
      else if containsSub "i5".data p || containsSub "ryzen 5".data p then 75
      else if containsSub "i3".data p || containsSub "ryzen 3".data p then 65
      else 60
    else 60

/-- The record produced by `extract_detailed_specs`. -/
structure SpecDetails where
  ram_gb : Option ℕ
  storage_gb : Option ℕ
  storage_type : Option String
  battery_mah : Option ℕ
  display_size : Option ℚ
  display_type : Option String
  processor : Option (List Char)
  warranty_years : Option ℕ
  energy_star : Option ℕ
  performance_score : ℕ
deriving Repr, DecidableEq

/-- `' '.join(specs)` as a character list. -/
def joinWithSpace : List String → List Char
  | [] => []
  | [s] => s.data
  | s :: rest => s.data ++ ' ' :: joinWithSpace rest

/-- The extraction text `f"{title} {' '.join(specs)}".lower()`. -/
def specText (title : String) (specs : List String) : List Char :=
  (title.data ++ ' ' :: joinWithSpace specs).map Char.toLower

/-- `extract_detailed_specs` (`rdm_calculator.py` 37–139). -/
def extractDetailedSpecs (title : String) (specs : List String) (category : String) :
    SpecDetails :=
  let text := specText title specs
  let storageM := searchPos storageAt text
  let processor := processorOf text
  { ram_gb := searchPos ramAt text
    storage_gb := storageM.map fun p => if p.2 then p.1 * 1024 else p.1
    storage_type :=
      match storageM with
      | none => none
      | some _ =>
        if containsSub "ssd".data text then some "SSD"
        else if containsSub "hdd".data text then some "HDD"
        else none
    battery_mah :=
      match searchPos batteryAt text with
      | some n => some n
      | none =>
        -- `if whr:` — Python truthiness, so a zero capture is discarded
        match searchPos whrAt text with
        | some w => if w ≠ 0 then some (whrToMah w) else none
        | none => none
    display_size := searchPos displayAt text
    display_type := displayTypeOf text
    processor := processor
    warranty_years := searchPos warrantyAt text
    energy_star := searchPos energyAt text
    performance_score := calculatePerformanceScore processor category }

/-! ### Fallback spec patterns (`main.py`, `enhance_product_with_gemini`, lines 396–415)

`re.findall` over the original-case product title with `re.IGNORECASE`;
captures keep the original case. -/

/-- Case-insensitive literal match (`lit` given in lowercase). -/
def ciLitAt : List Char → List Char → Option (List Char)
  | [], t => some t
  | _ :: _, [] => none
  | l :: ls, t :: ts => if l == t.toLower then ciLitAt ls ts else none

/-- `re.findall`: scan left to right, emit non-overlapping matches, resume
after each match end.  `m` returns the rest after a match; fuel is the text
length (every step consumes at least one character; no pattern here can
match the empty string, `max k 1` only guards the recursion). -/
def findAllAux (fuel : ℕ) (m : List Char → Option (List Char)) :
    List Char → List (List Char)
  | [] => []
  | c :: t =>
    match fuel with
    | 0 => []
    | fuel + 1 =>
      match m (c :: t) with
      | some r =>
        let k := (c :: t).length - r.length
        (c :: t).take k :: findAllAux fuel m ((c :: t).drop (max k 1))
      | none => findAllAux fuel m t

/-- All matches of `m` in `l`, `re.findall` style. -/
def findAll (m : List Char → Option (List Char)) (l : List Char) : List (List Char) :=
  findAllAux l.length m l

/-- `(\d+(?:GB|TB)\s+(?:RAM|Storage|SSD|HDD))`. -/
def specPat1At (s : List Char) : Option (List Char) := do
  let (_, r1) ← digitsPlus s
  let r2 ← match ciLitAt "gb".data r1 with
           | some r => some r
           | none => ciLitAt "tb".data r1
  let r3 ← wsPlus r2
  match ciLitAt "ram".data r3 with
  | some r => some r
  | none =>
    match ciLitAt "storage".data r3 with
    | some r => some r
    | none =>
      match ciLitAt "ssd".data r3 with
      | some r => some r
      | none => ciLitAt "hdd".data r3

/-- `(Core\s+i\d+[-\w]+|Ryzen\s+\d+)`.  In the first branch, after the
greedy `\d+` run `d`, `[-\w]+` needs one more class character: either the
following `[-\w]` run is nonempty, or backtracking hands it the last digit
of `d` (possible only when `d` has at least two digits). -/
def specPat2At (s : List Char) : Option (List Char) :=
  match (do
    let r1 ← ciLitAt "core".data s
    let r2 ← wsPlus r1
    let r3 ← ciLitAt "i".data r2
    let (d, r4) ← digitsPlus r3
    let w := r4.takeWhile fun c => wordChar c || c == '-'
    if ¬ w.isEmpty then some (r4.drop w.length)
    else if 2 ≤ d.length then some r4
    else none : Option (List Char)) with
  | some r => some r
  | none => do
    let r1 ← ciLitAt "ryzen".data s
    let r2 ← wsPlus r1
    let (_, r3) ← digitsPlus r2
    some r3

/-- The optional fraction `(?:\.?\d+)?` after a maximal digit run: the
dotless alternative can never fire (the next character is not a digit), and
giving back fraction digits can never rescue the following literal, so the
candidates are "dot plus the full fraction run" then "absent", in that
greedy order. -/
def fracCands (r1 : List Char) : List (List Char) :=
  (match r1 with
   | '.' :: r2 =>
     match digitsSplit r2 with
     | ([], _) => []
     | (_, r3) => [r3]
   | _ => []) ++ [r1]

/-- `(\d+(?:\.?\d+)?"\s*(?:FHD|HD|Display)?)`. -/
def specPat3At (s : List Char) : Option (List Char) := do
  let (_, r1) ← digitsPlus s
  firstSome (fracCands r1) fun rA => do
    let r5 ← litAt ['"'] rA
    let r6 := wsDrop r5
    match ciLitAt "fhd".data r6 with
    | some r => some r
    | none =>
      match ciLitAt "hd".data r6 with
      | some r => some r
      | none =>
        match ciLitAt "display".data r6 with
        | some r => some r
        | none => some r6

/-- `(\d+(?:mAh|WHR)\s+Battery)`. -/
def specPat4At (s : List Char) : Option (List Char) := do
  let (_, r1) ← digitsPlus s
  let r2 ← match ciLitAt "mah".data r1 with
           | some r => some r
           | none => ciLitAt "whr".data r1
  let r3 ← wsPlus r2
  ciLitAt "battery".data r3

/-- `(\d+(?:\.?\d+)?\s*(?:inch|cm))`. -/
def specPat5At (s : List Char) : Option (List Char) := do
  let (_, r1) ← digitsPlus s
  firstSome (fracCands r1) fun rA => do
    let r2 := wsDrop rA
    match ciLitAt "inch".data r2 with
    | some r => some r
    | none => ciLitAt "cm".data r2

/-- Python `str.strip()`. -/
def stripWs (l : List Char) : List Char :=
  ((l.dropWhile Char.isWhitespace).reverse.dropWhile Char.isWhitespace).reverse

/-- The fallback spec list built in `enhance_product_with_gemini`
(`main.py` 397–410): for each pattern in order, every match, skipping
matches whose raw text is empty or already present (note the source tests
membership of the *raw* match but appends the *stripped* match). -/
def mainFallbackSpecs (title : String) : List String :=
  [specPat1At, specPat2At, specPat3At, specPat4At, specPat5At].foldl
    (fun acc pat =>
      (findAll pat title.data).foldl
        (fun acc m =>
          let mStr := String.mk m
          if mStr ≠ "" && !acc.contains mStr then acc ++ [String.mk (stripWs m)]
          else acc)
        acc)
    []

/-- The `specifications` field returned by the fallback path of
`enhance_product_with_gemini` (`main.py` 412–415). -/
def enhanceFallbackSpecifications (title category : String) : List String :=
  let fs := mainFallbackSpecs title
  if fs.isEmpty then [category ++ " product"] else fs.take 5

/-! ### Theorems for claims C2 and C3 -/

/-- Claim C2, counterexample: the title "tablet case" contains the
accessory keyword "case" and the host-device keyword "tablet", yet the
classifier returns the host-device category "tablet" (the phone/laptop
accessory rules do not cover tablets, and the tablet rule's inner check
only looks for stand/holder/mount). -/
theorem c2_counterexample :
    strContains "tablet case" "case" = true ∧
    strContains "tablet case" "tablet" = true ∧
    detectCategory "tablet case" = "tablet" := by decide

/-- Claim C2, amended: of the fifteen accessory-keyword × host-keyword
titles, the classifier returns an accessory (non-host) category for the
ten pairings covered by the priority rules — every laptop pairing, and
case/stand/charger with phone, stand/charger with tablet — but returns the
host-device category for "phone bag", "phone table", "tablet case",
"tablet bag" and "tablet table". -/
theorem c2_amended :
    detectCategory "laptop case" = "laptop accessory" ∧
    detectCategory "laptop stand" = "stand/mount" ∧
    detectCategory "laptop bag" = "laptop accessory" ∧
    detectCategory "laptop charger" = "charger/cable" ∧
    detectCategory "laptop table" = "laptop table/desk" ∧
    detectCategory "phone case" = "phone accessory" ∧
    detectCategory "phone stand" = "stand/mount" ∧
    detectCategory "phone charger" = "charger/cable" ∧
    detectCategory "tablet stand" = "stand/mount" ∧
    detectCategory "tablet charger" = "charger/cable" ∧
    detectCategory "phone bag" = "smartphone" ∧
    detectCategory "phone table" = "smartphone" ∧
    detectCategory "tablet case" = "tablet" ∧
    detectCategory "tablet bag" = "tablet" ∧
    detectCategory "tablet table" = "tablet" := by decide

/-- The claim C3 round-trip title. -/
def c3Title : String := "16GB RAM, 512GB SSD, Core i7 processor, 4500mAh battery"

/-- Claim C3, counterexample: on the round-trip title the spec extractor
returns storage 16 GB — the storage regex `(\d+)\s*(tb|gb)\s*(?:ssd|…)?`
takes the leftmost match, which is the "16GB" of the RAM clause — and no
processor at all, because every processor pattern requires a brand token
("intel core i7", not bare "Core i7").  So the claimed storage = 512 and
"processor containing i7" both fail. -/
theorem c3_counterexample :
    (extractDetailedSpecs c3Title [] "laptop").storage_gb ≠ some 512 ∧
    (extractDetailedSpecs c3Title [] "laptop").processor = none := by decide

/-- Claim C3, amended: on the round-trip title the structured extractor
yields memory 16 GB, battery 4500 mAh and storage type SSD as claimed, but
storage size 16 (not 512) and no processor; the string-level fallback in
`enhance_product_with_gemini` extracts the three clauses "16GB RAM",
"512GB SSD" and "4500mAh battery" but likewise no processor string (its
`Core\s+i\d+[-\w]+` pattern needs a suffix after "i7"). -/
theorem c3_amended :
    (extractDetailedSpecs c3Title [] "laptop").ram_gb = some 16 ∧
    (extractDetailedSpecs c3Title [] "laptop").storage_gb = some 16 ∧
    (extractDetailedSpecs c3Title [] "laptop").storage_type = some "SSD" ∧
    (extractDetailedSpecs c3Title [] "laptop").battery_mah = some 4500 ∧
    (extractDetailedSpecs c3Title [] "laptop").processor = none ∧
    mainFallbackSpecs c3Title = ["16GB RAM", "512GB SSD", "4500mAh battery"] := by decide

/-! ### RDM scoring engine (`rdm_calculator.py` 176–370)

Floats are modelled as exact rationals; the one transcendental operation
(`math.log` in the review score) is modelled with `Real.log`, making the
review score and the composite real-valued (and the engine
`noncomputable`, exactly at the spot where the code leaves rational
arithmetic).  `round(x, 1)` is modelled as `round (10*x) / 10`; Mathlib's
`round` breaks exact `.05` ties upward where Python floats use
banker's rounding, and no claim depends on a tie. -/

/-- Input product record for `calculate_rdm_scores` (`price_raw` in paise;
a missing key reads as `0` via `p.get('price_raw', 0)`). -/
structure ProductIn where
  title : String
  specs : List String
  price_raw : ℤ
  rating_estimate : Option ℚ
  rating_count_estimate : Option ℤ
deriving Repr, DecidableEq

/-- The dict merge `{**p, **details}` (the key sets are disjoint). -/
structure Enriched extends ProductIn, SpecDetails
deriving Repr

/-- Per-candidate score breakdown (`rdm_breakdown`), each entry
`round(x, 1)`. -/
structure Breakdown where
  price_score : ℚ
  rating_score : ℚ
  review_score : ℝ
  feature_score : ℚ
  ownership_score : ℚ

/-- Output record: the enriched product with `rdm_score` and
`rdm_breakdown` added. -/
structure Scored extends Enriched where
  rdm_score : ℝ
  rdm_breakdown : Breakdown

/-- `round(x, 1)` (used on rationals for the four rational sub-scores and
on reals for the review score and the composite). -/
def round1 {α : Type} [LinearOrderedField α] [FloorRing α] (x : α) : α :=
  ((round (10 * x) : ℤ) : α) / 10

/-- Python `min` over a nonempty list, with head as seed. -/
def foldlMin [LinearOrder α] (v : α) (vs : List α) : α := vs.foldl min v

/-- Python `max` over a nonempty list, with head as seed. -/
def foldlMax [LinearOrder α] (v : α) (vs : List α) : α := vs.foldl max v

/-- `_safe_range` (`rdm_calculator.py` 17–24). -/
def safeRange (values : List ℚ) (dmin dmax : ℚ) : ℚ × ℚ :=
  match values with
  | [] => (dmin, dmax)
  | v :: vs =>
    let vmin := foldlMin v vs
    let vmax := foldlMax v vs
    if vmax == vmin then (vmin, vmin + 1) else (vmin, vmax)

/-- `_normalize` (`rdm_calculator.py` 27–32). -/
def normalize (value : Option ℚ) (vmin vmax d : ℚ) : ℚ :=
  match value with
  | none => d
  | some v => if vmax == vmin then d else max 0 (min 100 (100 * (v - vmin) / (vmax - vmin)))

/-- `_ownership_score` (`rdm_calculator.py` 178–202). -/
def ownershipScore (warranty : Option ℕ) (energy : Option ℕ) : ℚ :=
  let w : ℚ :=
    match warranty with
    | some wy => if 3 ≤ wy then 100 else if wy == 2 then 70 else if wy == 1 then 40 else 20
    | none => 0
  let e : ℚ :=
    match energy with
    | some es => 20 * (es : ℚ)
    | none => 0
  match warranty, energy with
  | some _, some _ => (w + e) / 2
  | some _, none => w
  | none, some _ => e
  | none, none => 40

/-- Normalisation ranges (`ranges` dict, `rdm_calculator.py` 288–312);
fields start as `None` and are set per category. -/
structure Ranges where
  ram_min : Option ℚ := none
  ram_max : Option ℚ := none
  storage_min : Option ℚ := none
  storage_max : Option ℚ := none
  battery_min : Option ℚ := none
  battery_max : Option ℚ := none
  size_min : Option ℚ := none
  size_max : Option ℚ := none
deriving Repr

/-- Read a range bound.  A `none` here is unreachable: every bound read by
`_feature_score` is set by `calculate_rdm_scores` for the category that
reads it (phones/laptops set ram/storage/battery, all other categories
also set size). -/
def rangeVal : Option ℚ → ℚ
  | some v => v
  | none => 0

/-- Truthy numeric field values (`if p.get(key)`) as rationals. -/
def truthyVals (l : List (Option ℚ)) : List ℚ :=
  l.filterMap fun o =>
    match o with
    | some v => if v ≠ 0 then some v else none
    | none => none

/-- Cast an optional count to an optional rational. -/
def castNatOpt (o : Option ℕ) : Option ℚ := o.map fun n => (n : ℚ)

/-- `_feature_score` (`rdm_calculator.py` 205–249). -/
def featureScore (e : Enriched) (category : String) (r : Ranges) : ℚ :=
  -- `perf = product.get('performance_score') or 50` (Python truthiness)
  let perf : ℚ := if e.performance_score = 0 then 50 else (e.performance_score : ℚ)
  if category == "smartphone" || category == "phone" then
    let ram := normalize (castNatOpt e.ram_gb) (rangeVal r.ram_min) (rangeVal r.ram_max) 50
    let storage := normalize (castNatOpt e.storage_gb) (rangeVal r.storage_min) (rangeVal r.storage_max) 50
    let battery := normalize (castNatOpt e.battery_mah) (rangeVal r.battery_min) (rangeVal r.battery_max) 50
    0.30 * perf + 0.25 * ram + 0.25 * storage + 0.20 * battery
  else if category == "laptop" then
    let ram := normalize (castNatOpt e.ram_gb) (rangeVal r.ram_min) (rangeVal r.ram_max) 50
    let storageTypeScore : ℚ :=
      if e.storage_type == some "SSD" then 100 else if e.storage_type == some "HDD" then 60 else 50
    let displayScore : ℚ :=
      if e.display_type == some "4K" then 100 else if e.display_type == some "QHD" then 80
      else if e.display_type == some "FHD" then 60 else 50
    let battery := normalize (castNatOpt e.battery_mah) (rangeVal r.battery_min) (rangeVal r.battery_max) 50
    0.30 * perf + 0.25 * ram + 0.20 * storageTypeScore + 0.15 * displayScore + 0.10 * battery
  else if category == "tv" || category == "monitor" || category == "display" then
    let size := normalize e.display_size (rangeVal r.size_min) (rangeVal r.size_max) 50
    let displayScore : ℚ :=
      if e.display_type == some "4K" then 100 else if e.display_type == some "QHD" then 80
      else if e.display_type == some "FHD" then 60 else 50
    0.5 * displayScore + 0.5 * size
  else if category == "ac" || category == "air conditioner" then
    normalize (castNatOpt e.energy_star) 1 5 50
  else if category == "fridge" || category == "refrigerator" ||
          category == "washing machine" || category == "appliance" then
    normalize (castNatOpt e.energy_star) 1 5 50
  else
    perf

/-- Set-level statistics computed once per call in `calculate_rdm_scores`
(lines 272–312). -/
structure Stats where
  price_min : ℚ
  price_max : ℚ
  review_counts_valid : List ℤ
  review_max : ℤ
  ranges : Ranges

/-- Rating truthiness (`p.get('rating_estimate')` as a condition). -/
def ratingTruthy (p : ProductIn) : Bool :=
  match p.rating_estimate with
  | some r => r != 0
  | none => false

/-- The per-product review count used when building the `reviews` list
(`rdm_calculator.py` 276–281): `None` becomes 10 when a rating exists,
then only truthy values are kept. -/
def reviewCountOf (p : ProductIn) : Option ℤ :=
  let rc := p.rating_count_estimate
  let rc := if rc = none && ratingTruthy p then some 10 else rc
  match rc with
  | some v => if v ≠ 0 then some v else none
  | none => none

/-- `rating = p.get('rating_estimate') or 0`. -/
def ratingOf (p : ProductIn) : ℚ := p.rating_estimate.getD 0

/-- The review count used in the scoring loop (`rdm_calculator.py` 318–321). -/
def reviewCnt (p : ProductIn) : ℤ :=
  match p.rating_count_estimate with
  | some v => v
  | none => if 0 < ratingOf p then 10 else 0

/-- Enrich one product (`rdm_calculator.py` 268–270). -/
def mkEnriched (category : String) (p : ProductIn) : Enriched :=
  { toProductIn := p, toSpecDetails := extractDetailedSpecs p.title p.specs category }

/-- The enrichment pass. -/
def enrichList (products : List ProductIn) (category : String) : List Enriched :=
  products.map (mkEnriched category)

/-- All set-level statistics (`rdm_calculator.py` 272–312).  The source
also computes `rating_max` (line 284) but never reads it. -/
def statsOf (enriched : List Enriched) (category : String) : Stats :=
  let prices : List ℚ := enriched.filterMap fun p =>
    if p.price_raw ≠ 0 then some ((p.price_raw : ℚ) / 100) else none
  let reviews : List ℤ := enriched.filterMap fun p => reviewCountOf p.toProductIn
  let pm := safeRange prices 1 2
  let review_counts_valid := reviews.filter fun r => decide (r ≠ 0 ∧ 1 ≤ r)
  let review_max : ℤ :=
    match review_counts_valid with
    | [] => 0
    | v :: vs => foldlMax v vs
  let setRange (values : List ℚ) (dmin dmax : ℚ) : ℚ × ℚ := safeRange values dmin dmax
  let ranges : Ranges :=
    if category == "smartphone" || category == "phone" then
      let ram := setRange (truthyVals (enriched.map fun p => castNatOpt p.ram_gb)) 4 12
      let st := setRange (truthyVals (enriched.map fun p => castNatOpt p.storage_gb)) 64 512
      let ba := setRange (truthyVals (enriched.map fun p => castNatOpt p.battery_mah)) 4000 6000
      { ram_min := some ram.1, ram_max := some ram.2,
        storage_min := some st.1, storage_max := some st.2,
        battery_min := some ba.1, battery_max := some ba.2 }
    else if category == "laptop" then
      let ram := setRange (truthyVals (enriched.map fun p => castNatOpt p.ram_gb)) 8 32
      let st := setRange (truthyVals (enriched.map fun p => castNatOpt p.storage_gb)) 256 2048
      let ba := setRange (truthyVals (enriched.map fun p => castNatOpt p.battery_mah)) 3000 8000
      { ram_min := some ram.1, ram_max := some ram.2,
        storage_min := some st.1, storage_max := some st.2,
        battery_min := some ba.1, battery_max := some ba.2 }
    else
      let ram := setRange (truthyVals (enriched.map fun p => castNatOpt p.ram_gb)) 4 16
      let st := setRange (truthyVals (enriched.map fun p => castNatOpt p.storage_gb)) 64 512
      let ba := setRange (truthyVals (enriched.map fun p => castNatOpt p.battery_mah)) 4000 6000
      let sz := setRange (truthyVals (enriched.map fun p => p.display_size)) 6 55
      { ram_min := some ram.1, ram_max := some ram.2,
        storage_min := some st.1, storage_max := some st.2,
        battery_min := some ba.1, battery_max := some ba.2,
        size_min := some sz.1, size_max := some sz.2 }
  { price_min := pm.1, price_max := pm.2,
    review_counts_valid := review_counts_valid, review_max := review_max,
    ranges := ranges }

/-- The unrounded price sub-score (`rdm_calculator.py` 323). -/
def priceScoreVal (st : Stats) (p : ProductIn) : ℚ :=
  let price := (p.price_raw : ℚ) / 100
  if st.price_min < st.price_max then
    100 * (st.price_max - price) / (st.price_max - st.price_min)
  else 50

/-- The unrounded review sub-score (`rdm_calculator.py` 326–329). -/
noncomputable def reviewScoreVal (st : Stats) (p : ProductIn) : ℝ :=
  if st.review_max ≤ 0 ∨ st.review_counts_valid.length < 2 ∨ st.review_max < 50 then 50
  else if 0 < reviewCnt p then
    100 * Real.log (1 + (reviewCnt p : ℝ)) / Real.log (1 + (st.review_max : ℝ))
  else 0

/-- The category-weighted composite (`rdm_calculator.py` 333–357). -/
noncomputable def rdmComposite (category : String)
    (price_score rating_score feature_score ownership_score : ℚ)
    (review_score : ℝ) : ℝ :=
  if category == "smartphone" || category == "phone" then
    0.20 * (price_score : ℝ) + 0.25 * (rating_score : ℝ) + 0.20 * review_score +
      0.25 * (feature_score : ℝ) + 0.10 * (ownership_score : ℝ)
  else if category == "laptop" then
    0.20 * (price_score : ℝ) + 0.25 * (rating_score : ℝ) + 0.20 * review_score +
      0.25 * (feature_score : ℝ) + 0.10 * (ownership_score : ℝ)
  else
    0.25 * (price_score : ℝ) + 0.25 * (rating_score : ℝ) + 0.20 * review_score +
      0.20 * (feature_score : ℝ) + 0.10 * (ownership_score : ℝ)

/-- Score one enriched product (`rdm_calculator.py` 315–366). -/
noncomputable def scoreOne (st : Stats) (category : String) (e : Enriched) : Scored :=
  let price_score := priceScoreVal st e.toProductIn
  let rating_score : ℚ := 20 * ratingOf e.toProductIn
  let review_score := reviewScoreVal st e.toProductIn
  let ownership_score := ownershipScore e.warranty_years e.energy_star
  let feature_score := featureScore e category st.ranges
  let rdm : ℝ := rdmComposite category price_score rating_score feature_score
    ownership_score review_score
  { toEnriched := e
    rdm_score := round1 rdm
    rdm_breakdown :=
      { price_score := round1 price_score
        rating_score := round1 rating_score
        review_score := round1 review_score
        feature_score := round1 feature_score
        ownership_score := round1 ownership_score } }

/-- `calculate_rdm_scores` (`rdm_calculator.py` 252–370): empty input
short-circuits; otherwise enrich, compute set statistics, score each
product and sort by `rdm_score` descending (`list.sort` is a stable sort;
the claims here need the permutation and sortedness properties, which
`insertionSort` shares with it). -/
noncomputable def calculateRdmScores (products : List ProductIn) (category : String) :
    List Scored :=
  match products with
  | [] => []
  | _ =>
    let enriched := enrichList products category
    let st := statsOf enriched category
    (enriched.map (scoreOne st category)).insertionSort fun a b => b.rdm_score ≤ a.rdm_score

/-! ### Helper lemmas about the engine -/

theorem foldlMin_le_init [LinearOrder α] (v : α) (vs : List α) : foldlMin v vs ≤ v := by
  induction vs generalizing v with
  | nil => simp [foldlMin]
  | cons u us ih =>
    simp only [foldlMin, List.foldl_cons] at *
    exact le_trans (ih (min v u)) (min_le_left v u)

theorem foldlMin_le_mem [LinearOrder α] (v x : α) (vs : List α) (hx : x ∈ vs) :
    foldlMin v vs ≤ x := by
  induction vs generalizing v with
  | nil => cases hx
  | cons u us ih =>
    simp only [foldlMin, List.foldl_cons] at *
    rcases List.mem_cons.1 hx with rfl | hx'
    · exact le_trans (foldlMin_le_init _ _) (min_le_right v x)
    · exact ih _ hx'

theorem le_foldlMax_init [LinearOrder α] (v : α) (vs : List α) : v ≤ foldlMax v vs := by
  induction vs generalizing v with
  | nil => simp [foldlMax]
  | cons u us ih =>
    simp only [foldlMax, List.foldl_cons] at *
    exact le_trans (le_max_left v u) (ih (max v u))

theorem le_foldlMax_mem [LinearOrder α] (v x : α) (vs : List α) (hx : x ∈ vs) :
    x ≤ foldlMax v vs := by
  induction vs generalizing v with
  | nil => cases hx
  | cons u us ih =>
    simp only [foldlMax, List.foldl_cons] at *
    rcases List.mem_cons.1 hx with rfl | hx'
    · exact le_trans (le_max_right v x) (le_foldlMax_init _ _)
    · exact ih _ hx'

theorem foldlMin_all_eq [LinearOrder α] (a : α) (vs : List α) (h : ∀ x ∈ vs, x = a) :
    foldlMin a vs = a := by
  induction vs with
  | nil => rfl
  | cons u us ih =>
    have hu : u = a := h u (by simp)
    simp only [foldlMin, List.foldl_cons, hu, min_self]
    exact ih fun x hx => h x (by simp [hx])

theorem foldlMax_all_eq [LinearOrder α] (a : α) (vs : List α) (h : ∀ x ∈ vs, x = a) :
    foldlMax a vs = a := by
  induction vs with
  | nil => rfl
  | cons u us ih =>
    have hu : u = a := h u (by simp)
    simp only [foldlMax, List.foldl_cons, hu, max_self]
    exact ih fun x hx => h x (by simp [hx])

theorem safeRange_all_eq (v : ℚ) (vs : List ℚ) (a d1 d2 : ℚ)
    (h : ∀ x ∈ v :: vs, x = a) : safeRange (v :: vs) d1 d2 = (a, a + 1) := by
  have hv : v = a := h v (by simp)
  have hmin : foldlMin v vs = a := by
    subst hv; exact foldlMin_all_eq _ _ fun x hx => h x (by simp [hx])
  have hmax : foldlMax v vs = a := by
    subst hv; exact foldlMax_all_eq _ _ fun x hx => h x (by simp [hx])
  simp [safeRange, hmin, hmax]

theorem safeRange_mem_bounds (v : ℚ) (vs : List ℚ) (x d1 d2 : ℚ) (hx : x ∈ v :: vs) :
    (safeRange (v :: vs) d1 d2).1 ≤ x ∧ x ≤ (safeRange (v :: vs) d1 d2).2 := by
  have h1 : foldlMin v vs ≤ x := by
    rcases List.mem_cons.1 hx with rfl | hx'
    · exact foldlMin_le_init _ _
    · exact foldlMin_le_mem _ _ _ hx'
  have h2 : x ≤ foldlMax v vs := by
    rcases List.mem_cons.1 hx with rfl | hx'
    · exact le_foldlMax_init _ _
    · exact le_foldlMax_mem _ _ _ hx'
  simp only [safeRange]
  split
  · next heq =>
    have : foldlMax v vs = foldlMin v vs := by simpa using heq
    constructor
    · exact h1
    · calc x ≤ foldlMax v vs := h2
        _ = foldlMin v vs := this
        _ ≤ foldlMin v vs + 1 := by linarith
  · exact ⟨h1, h2⟩

theorem round_le_round_of_le {α : Type} [LinearOrderedField α] [FloorRing α]
    {x y : α} (h : x ≤ y) : round x ≤ round y := by
  rw [round_eq, round_eq]
  exact Int.floor_mono (by linarith)

theorem round1_bounds {α : Type} [LinearOrderedField α] [FloorRing α] {x : α}
    (h0 : 0 ≤ x) (h1 : x ≤ 100) : 0 ≤ round1 x ∧ round1 x ≤ 100 := by
  have hl : (0 : ℤ) ≤ round (10 * x) := by
    have h := round_le_round_of_le (show (0 : α) ≤ 10 * x by linarith)
    simpa using h
  have hu : round (10 * x) ≤ 1000 := by
    have h := round_le_round_of_le (show 10 * x ≤ (1000 : α) by linarith)
    simpa using h
  constructor
  · exact div_nonneg (by exact_mod_cast hl) (by norm_num)
  · rw [round1, div_le_iff₀ (by norm_num : (0 : α) < 10)]
    calc ((round (10 * x) : ℤ) : α) ≤ ((1000 : ℤ) : α) := by exact_mod_cast hu
      _ = 100 * 10 := by norm_num

theorem mem_calculateRdmScores {products : List ProductIn} {category : String} {q : Scored}
    (h : q ∈ calculateRdmScores products category) :
    ∃ p ∈ products,
      q = scoreOne (statsOf (enrichList products category) category) category
            (mkEnriched category p) := by
  cases products with
  | nil => simp [calculateRdmScores] at h
  | cons p ps =>
    simp only [calculateRdmScores] at h
    rw [List.mem_insertionSort] at h
    rcases List.mem_map.1 h with ⟨e, he, rfl⟩
    rcases List.mem_map.1 (show e ∈ (p :: ps).map (mkEnriched category) from he)
      with ⟨p', hp', rfl⟩
    exact ⟨p', hp', rfl⟩

/-- The price list built by `calculate_rdm_scores` (line 273). -/
def pricesOf (enriched : List Enriched) : List ℚ :=
  enriched.filterMap fun p =>
    if p.price_raw ≠ 0 then some ((p.price_raw : ℚ) / 100) else none

theorem statsOf_price (enriched : List Enriched) (category : String) :
    (statsOf enriched category).price_min = (safeRange (pricesOf enriched) 1 2).1 ∧
    (statsOf enriched category).price_max = (safeRange (pricesOf enriched) 1 2).2 := by
  simp [statsOf, pricesOf]

theorem mem_pricesOf {enriched : List Enriched} {x : ℚ} (hx : x ∈ pricesOf enriched) :
    ∃ e ∈ enriched, e.price_raw ≠ 0 ∧ x = (e.price_raw : ℚ) / 100 := by
  rcases List.mem_filterMap.1 hx with ⟨e, he, hfe⟩
  by_cases hz : e.price_raw ≠ 0
  · refine ⟨e, he, hz, ?_⟩
    simp only [if_pos hz] at hfe
    exact (Option.some_inj.1 hfe).symm
  · simp [if_neg hz] at hfe

theorem pricesOf_mem {enriched : List Enriched} {e : Enriched} (he : e ∈ enriched)
    (hz : e.price_raw ≠ 0) : ((e.price_raw : ℚ) / 100) ∈ pricesOf enriched :=
  List.mem_filterMap.2 ⟨e, he, by simp [if_pos hz]⟩

theorem calculatePerformanceScore_le (proc : Option (List Char)) (category : String) :
    calculatePerformanceScore proc category ≤ 100 := by
  cases proc with
  | none => simp [calculatePerformanceScore]
  | some p =>
    simp only [calculatePerformanceScore]
    split_ifs <;> norm_num

theorem normalize_bounds (value : Option ℚ) (vmin vmax d : ℚ) (hd0 : 0 ≤ d)
    (hd1 : d ≤ 100) : 0 ≤ normalize value vmin vmax d ∧ normalize value vmin vmax d ≤ 100 := by
  cases value with
  | none => simpa [normalize] using ⟨hd0, hd1⟩
  | some v =>
    simp only [normalize]
    split
    · exact ⟨hd0, hd1⟩
    · exact ⟨le_max_left _ _, max_le (by norm_num) (min_le_left _ _)⟩

set_option maxHeartbeats 1000000 in
theorem featureScore_bounds (e : Enriched) (category : String) (r : Ranges)
    (hperf : e.performance_score ≤ 100) :
    0 ≤ featureScore e category r ∧ featureScore e category r ≤ 100 := by
  have hp0 : (0 : ℚ) ≤ (e.performance_score : ℚ) := by positivity
  have hp1 : (e.performance_score : ℚ) ≤ 100 := by exact_mod_cast hperf
  obtain ⟨hr0, hr1⟩ := normalize_bounds (castNatOpt e.ram_gb)
    (rangeVal r.ram_min) (rangeVal r.ram_max) 50 (by norm_num) (by norm_num)
  obtain ⟨hs0, hs1⟩ := normalize_bounds (castNatOpt e.storage_gb)
    (rangeVal r.storage_min) (rangeVal r.storage_max) 50 (by norm_num) (by norm_num)
  obtain ⟨hb0, hb1⟩ := normalize_bounds (castNatOpt e.battery_mah)
    (rangeVal r.battery_min) (rangeVal r.battery_max) 50 (by norm_num) (by norm_num)
  obtain ⟨hz0, hz1⟩ := normalize_bounds e.display_size
    (rangeVal r.size_min) (rangeVal r.size_max) 50 (by norm_num) (by norm_num)
  obtain ⟨he0, he1⟩ := normalize_bounds (castNatOpt e.energy_star)
    1 5 50 (by norm_num) (by norm_num)
  have hst0 : (0 : ℚ) ≤
      (if e.storage_type == some "SSD" then 100 else if e.storage_type == some "HDD" then 60 else 50) := by
    split_ifs <;> norm_num
  have hst1 : (if e.storage_type == some "SSD" then (100 : ℚ)
      else if e.storage_type == some "HDD" then 60 else 50) ≤ 100 := by
    split_ifs <;> norm_num
  have hdt0 : (0 : ℚ) ≤ (if e.display_type == some "4K" then 100
      else if e.display_type == some "QHD" then 80
      else if e.display_type == some "FHD" then 60 else 50) := by
    split_ifs <;> norm_num
  have hdt1 : (if e.display_type == some "4K" then (100 : ℚ)
      else if e.display_type == some "QHD" then 80
      else if e.display_type == some "FHD" then 60 else 50) ≤ 100 := by
    split_ifs <;> norm_num
  simp only [featureScore]
  split_ifs <;> constructor <;> linarith

theorem ownershipScore_bounds (w en : Option ℕ) (hen : ∀ n, en = some n → n ≤ 5) :
    0 ≤ ownershipScore w en ∧ ownershipScore w en ≤ 100 := by
  rcases w with _ | wy <;> rcases en with _ | es
  · norm_num [ownershipScore]
  · have h5 : (es : ℚ) ≤ 5 := by exact_mod_cast hen es rfl
    have h0 : (0 : ℚ) ≤ (es : ℚ) := by positivity
    simp only [ownershipScore]
    constructor <;> linarith
  · simp only [ownershipScore]
    split_ifs <;> norm_num
  · have h5 : (es : ℚ) ≤ 5 := by exact_mod_cast hen es rfl
    have h0 : (0 : ℚ) ≤ (es : ℚ) := by positivity
    simp only [ownershipScore]
    split_ifs <;> constructor <;> linarith

theorem priceScoreVal_bounds (products : List ProductIn) (category : String)
    (p : ProductIn) (hp : p ∈ products) (hpos : ∀ p' ∈ products, 0 < p'.price_raw) :
    0 ≤ priceScoreVal (statsOf (enrichList products category) category) p ∧
      priceScoreVal (statsOf (enrichList products category) category) p ≤ 100 := by
  have hz : p.price_raw ≠ 0 := ne_of_gt (hpos p hp)
  have hzE : (mkEnriched category p).price_raw ≠ 0 := hz
  have hmemE : mkEnriched category p ∈ enrichList products category :=
    List.mem_map.2 ⟨p, hp, rfl⟩
  have hmem : ((p.price_raw : ℚ) / 100) ∈ pricesOf (enrichList products category) :=
    pricesOf_mem hmemE hzE
  obtain ⟨hpmin, hpmax⟩ := statsOf_price (enrichList products category) category
  unfold priceScoreVal
  split
  · next hlt =>
    cases hpc : pricesOf (enrichList products category) with
    | nil => rw [hpc] at hmem; cases hmem
    | cons a as =>
      have hb := safeRange_mem_bounds a as ((p.price_raw : ℚ) / 100) 1 2 (hpc ▸ hmem)
      rw [← hpc] at hb
      rw [hpmin, hpmax] at hlt
      have hnum0 : 0 ≤ (safeRange (pricesOf (enrichList products category)) 1 2).2 -
          (p.price_raw : ℚ) / 100 := by linarith [hb.2]
      have hden0 : 0 < (safeRange (pricesOf (enrichList products category)) 1 2).2 -
          (safeRange (pricesOf (enrichList products category)) 1 2).1 := by linarith
      rw [hpmin, hpmax]
      constructor
      · positivity
      · rw [div_le_iff₀ hden0]
        have := hb.1
        linarith
  · next => exact ⟨by norm_num, by norm_num⟩

/-- The valid-review-count list built in `calculate_rdm_scores` (line 285). -/
def reviewValidOf (enriched : List Enriched) : List ℤ :=
  (enriched.filterMap fun p => reviewCountOf p.toProductIn).filter fun r =>
    decide (r ≠ 0 ∧ 1 ≤ r)

theorem statsOf_review (enriched : List Enriched) (category : String) :
    (statsOf enriched category).review_counts_valid = reviewValidOf enriched ∧
    (statsOf enriched category).review_max =
      (match reviewValidOf enriched with
       | [] => 0
       | v :: vs => foldlMax v vs) := by
  constructor <;> simp [statsOf, reviewValidOf]

theorem reviewCnt_mem_valid (products : List ProductIn) (category : String)
    (p : ProductIn) (hp : p ∈ products) (hcnt : 0 < reviewCnt p) :
    reviewCnt p ∈ reviewValidOf (enrichList products category) := by
  have hmemE : mkEnriched category p ∈ enrichList products category :=
    List.mem_map.2 ⟨p, hp, rfl⟩
  have hsome : reviewCountOf p = some (reviewCnt p) := by
    cases hrc : p.rating_count_estimate with
    | some v =>
      have hv : reviewCnt p = v := by unfold reviewCnt; rw [hrc]
      have hvpos : 0 < v := hv ▸ hcnt
      unfold reviewCountOf
      rw [hrc, hv]
      show (if v ≠ 0 then some v else none) = some v
      rw [if_pos (by omega : v ≠ 0)]
    | none =>
      have hv : reviewCnt p = if 0 < ratingOf p then 10 else 0 := by
        unfold reviewCnt; rw [hrc]
      by_cases hr : 0 < ratingOf p
      · have hv10 : reviewCnt p = 10 := by rw [hv, if_pos hr]
        have ht : ratingTruthy p = true := by
          unfold ratingTruthy
          cases hre : p.rating_estimate with
          | none =>
            exfalso
            have : ratingOf p = 0 := by unfold ratingOf; rw [hre]; rfl
            rw [this] at hr
            exact lt_irrefl 0 hr
          | some r =>
            have hrr : ratingOf p = r := by unfold ratingOf; rw [hre]; rfl
            rw [hrr] at hr
            simpa using ne_of_gt hr
        unfold reviewCountOf
        rw [hrc, hv10, ht]
        rfl
      · have hv0 : reviewCnt p = 0 := by rw [hv, if_neg hr]
        rw [hv0] at hcnt
        exact absurd hcnt (by norm_num)
  have hrev : reviewCnt p ∈ (enrichList products category).filterMap
      (fun e => reviewCountOf e.toProductIn) :=
    List.mem_filterMap.2 ⟨mkEnriched category p, hmemE, hsome⟩
  exact List.mem_filter.2 ⟨hrev, by
    have h1 : (1 : ℤ) ≤ reviewCnt p := hcnt
    simp only [decide_eq_true_eq]
    exact ⟨by omega, h1⟩⟩

theorem le_review_max {enriched : List Enriched} {category : String} {x : ℤ}
    (hx : x ∈ reviewValidOf enriched) :
    x ≤ (statsOf enriched category).review_max := by
  obtain ⟨-, hmax⟩ := statsOf_review enriched category
  rw [hmax]
  cases hvc : reviewValidOf enriched with
  | nil => rw [hvc] at hx; cases hx
  | cons a as =>
    rw [hvc] at hx
    rcases List.mem_cons.1 hx with rfl | hx'
    · exact le_foldlMax_init _ _
    · exact le_foldlMax_mem _ _ _ hx'

theorem reviewScoreVal_bounds (products : List ProductIn) (category : String)
    (p : ProductIn) (hp : p ∈ products) :
    0 ≤ reviewScoreVal (statsOf (enrichList products category) category) p ∧
      reviewScoreVal (statsOf (enrichList products category) category) p ≤ 100 := by
  set st := statsOf (enrichList products category) category with hst
  unfold reviewScoreVal
  split
  · norm_num
  · next hguard =>
    push_neg at hguard
    obtain ⟨hm0, -, hm50⟩ := hguard
    split
    · next hcnt =>
      have hmem := reviewCnt_mem_valid products category p hp hcnt
      have hle : reviewCnt p ≤ st.review_max := le_review_max hmem
      have hc0 : (0 : ℝ) < 1 + (reviewCnt p : ℝ) := by
        have : (0 : ℝ) < (reviewCnt p : ℝ) := by exact_mod_cast hcnt
        linarith
      have hm1 : (1 : ℝ) < 1 + (st.review_max : ℝ) := by
        have : (50 : ℝ) ≤ (st.review_max : ℝ) := by exact_mod_cast hm50
        linarith
      have hlogm : 0 < Real.log (1 + (st.review_max : ℝ)) := Real.log_pos hm1
      have hlogc : 0 ≤ Real.log (1 + (reviewCnt p : ℝ)) := by
        apply Real.log_nonneg
        have : (1 : ℝ) ≤ (reviewCnt p : ℝ) := by exact_mod_cast hcnt
        linarith
      have hloglog : Real.log (1 + (reviewCnt p : ℝ)) ≤ Real.log (1 + (st.review_max : ℝ)) := by
        rw [Real.log_le_log_iff hc0 (by linarith)]
        have : (reviewCnt p : ℝ) ≤ (st.review_max : ℝ) := by exact_mod_cast hle
        linarith
      constructor
      · positivity
      · rw [div_le_iff₀ hlogm]
        nlinarith
    · norm_num

theorem rdmComposite_bounds (category : String)
    {ps rs fs os : ℚ} {vs : ℝ}
    (hps : 0 ≤ ps ∧ ps ≤ 100) (hrs : 0 ≤ rs ∧ rs ≤ 100)
    (hfs : 0 ≤ fs ∧ fs ≤ 100) (hos : 0 ≤ os ∧ os ≤ 100)
    (hvs : 0 ≤ vs ∧ vs ≤ 100) :
    0 ≤ rdmComposite category ps rs fs os vs ∧ rdmComposite category ps rs fs os vs ≤ 100 := by
  have hps0 : (0 : ℝ) ≤ (ps : ℝ) := by exact_mod_cast hps.1
  have hps1 : (ps : ℝ) ≤ 100 := by exact_mod_cast hps.2
  have hrs0 : (0 : ℝ) ≤ (rs : ℝ) := by exact_mod_cast hrs.1
  have hrs1 : (rs : ℝ) ≤ 100 := by exact_mod_cast hrs.2
  have hfs0 : (0 : ℝ) ≤ (fs : ℝ) := by exact_mod_cast hfs.1
  have hfs1 : (fs : ℝ) ≤ 100 := by exact_mod_cast hfs.2
  have hos0 : (0 : ℝ) ≤ (os : ℝ) := by exact_mod_cast hos.1
  have hos1 : (os : ℝ) ≤ 100 := by exact_mod_cast hos.2
  obtain ⟨hvs0, hvs1⟩ := hvs
  unfold rdmComposite
  split_ifs <;> constructor <;> nlinarith

/-! ### Theorems for claims C1, C6 and C10 -/

/-- Claim C1, amended: when every candidate has the same positive price,
no division by zero occurs — `_safe_range` expands the degenerate range to
`(v, v+1)`, so the denominator is exactly 1 — and every candidate receives
the same price sub-score, but that score is 100, not the claimed 50 (each
price sits at the minimum of the expanded range; the literal `else 50`
branch of line 323 is unreachable because `_safe_range` never returns a
degenerate range). -/
theorem c1_amended (products : List ProductIn) (category : String) (v : ℤ)
    (hne : products ≠ []) (hv : 0 < v) (hall : ∀ p ∈ products, p.price_raw = v) :
    (statsOf (enrichList products category) category).price_max -
      (statsOf (enrichList products category) category).price_min = 1 ∧
    ∀ q ∈ calculateRdmScores products category, q.rdm_breakdown.price_score = 100 := by
  have hallp : ∀ x ∈ pricesOf (enrichList products category), x = (v : ℚ) / 100 := by
    intro x hx
    rcases mem_pricesOf hx with ⟨e, he, hz, rfl⟩
    rcases List.mem_map.1 (show e ∈ products.map (mkEnriched category) from he)
      with ⟨p, hp, rfl⟩
    have hpr : (mkEnriched category p).price_raw = p.price_raw := rfl
    rw [hpr, hall p hp]
  have hne' : pricesOf (enrichList products category) ≠ [] := by
    cases products with
    | nil => exact absurd rfl hne
    | cons p ps =>
      have hz : (mkEnriched category p).price_raw ≠ 0 := by
        show p.price_raw ≠ 0
        rw [hall p (List.mem_cons_self p ps)]
        omega
      have hmem : ((mkEnriched category p).price_raw : ℚ) / 100 ∈
          pricesOf (enrichList (p :: ps) category) :=
        pricesOf_mem (List.mem_map.2 ⟨p, List.mem_cons_self p ps, rfl⟩) hz
      intro hnil
      rw [hnil] at hmem
      cases hmem
  obtain ⟨a, as, hcons⟩ : ∃ a as, pricesOf (enrichList products category) = a :: as := by
    cases hpc : pricesOf (enrichList products category) with
    | nil => exact absurd hpc hne'
    | cons a as => exact ⟨a, as, rfl⟩
  have hsr : safeRange (pricesOf (enrichList products category)) 1 2 =
      ((v : ℚ) / 100, (v : ℚ) / 100 + 1) := by
    rw [hcons]
    exact safeRange_all_eq _ _ _ _ _ fun x hx => hallp x (hcons ▸ hx)
  obtain ⟨hpmin, hpmax⟩ := statsOf_price (enrichList products category) category
  have hmin : (statsOf (enrichList products category) category).price_min = (v : ℚ) / 100 := by
    rw [hpmin, hsr]
  have hmax : (statsOf (enrichList products category) category).price_max =
      (v : ℚ) / 100 + 1 := by
    rw [hpmax, hsr]
  refine ⟨by rw [hmin, hmax]; ring, ?_⟩
  intro q hq
  rcases mem_calculateRdmScores hq with ⟨p, hp, rfl⟩
  have hproj : (scoreOne (statsOf (enrichList products category) category) category
      (mkEnriched category p)).rdm_breakdown.price_score =
      round1 (priceScoreVal (statsOf (enrichList products category) category) p) := rfl
  rw [hproj]
  have hps : priceScoreVal (statsOf (enrichList products category) category) p = 100 := by
    simp only [priceScoreVal]
    rw [hmin, hmax, hall p hp]
    rw [if_pos (show (v : ℚ) / 100 < (v : ℚ) / 100 + 1 by linarith)]
    have h1 : ((v : ℚ) / 100 + 1 - (v : ℚ) / 100) = 1 := by ring
    rw [h1]
    norm_num
  rw [hps]
  decide

/-- A single candidate with a uniform positive price. -/
def c1CexProduct : ProductIn :=
  { title := "", specs := [], price_raw := 10000,
    rating_estimate := none, rating_count_estimate := none }

/-- Claim C1, counterexample: a candidate set with one ₹100.00 item — all
prices equal and positive — receives the price sub-score 100, not 50. -/
theorem c1_counterexample :
    ((calculateRdmScores [c1CexProduct] "product").map
      fun q => q.rdm_breakdown.price_score) = [100] ∧
    ((calculateRdmScores [c1CexProduct] "product").map
      fun q => q.rdm_breakdown.price_score) ≠ [50] := by
  constructor <;> decide

/-- A positive-price candidate used to witness `c1_amended`. -/
def c1WitProduct : ProductIn :=
  { title := "Pixel 8", specs := [], price_raw := 4999900,
    rating_estimate := none, rating_count_estimate := none }

/-- Witness for `c1_amended` at a concrete two-element uniform-price set. -/
theorem c1_amended_witness :
    [c1WitProduct, c1WitProduct] ≠ [] ∧ (0 : ℤ) < 4999900 ∧
    ((statsOf (enrichList [c1WitProduct, c1WitProduct] "smartphone") "smartphone").price_max -
      (statsOf (enrichList [c1WitProduct, c1WitProduct] "smartphone") "smartphone").price_min = 1 ∧
    ∀ q ∈ calculateRdmScores [c1WitProduct, c1WitProduct] "smartphone",
      q.rdm_breakdown.price_score = 100) :=
  ⟨by decide, by decide,
   c1_amended [c1WitProduct, c1WitProduct] "smartphone" 4999900
     (by decide) (by decide) (by decide)⟩

/-- Claim C6, amended: under the scales the spec itself assumes — every
candidate priced (positive `price_raw`), ratings on the 0–5 star scale,
extracted energy-star digits at most 5 — all five sub-scores and the
composite lie in [0, 100].  Without the positive-price assumption the
price sub-score exceeds 100 (see the counterexample): zero/missing prices
are excluded from the normalisation range but still scored against it. -/
theorem c6_amended (products : List ProductIn) (category : String)
    (hprice : ∀ p ∈ products, 0 < p.price_raw)
    (hrating : ∀ p ∈ products, ∀ r, p.rating_estimate = some r → 0 ≤ r ∧ r ≤ 5)
    (henergy : ∀ p ∈ products, ∀ n,
        (extractDetailedSpecs p.title p.specs category).energy_star = some n → n ≤ 5) :
    ∀ q ∈ calculateRdmScores products category,
      (0 ≤ q.rdm_breakdown.price_score ∧ q.rdm_breakdown.price_score ≤ 100) ∧
      (0 ≤ q.rdm_breakdown.rating_score ∧ q.rdm_breakdown.rating_score ≤ 100) ∧
      (0 ≤ q.rdm_breakdown.review_score ∧ q.rdm_breakdown.review_score ≤ 100) ∧
      (0 ≤ q.rdm_breakdown.feature_score ∧ q.rdm_breakdown.feature_score ≤ 100) ∧
      (0 ≤ q.rdm_breakdown.ownership_score ∧ q.rdm_breakdown.ownership_score ≤ 100) ∧
      (0 ≤ q.rdm_score ∧ q.rdm_score ≤ 100) := by
  intro q hq
  rcases mem_calculateRdmScores hq with ⟨p, hp, rfl⟩
  have hpb := priceScoreVal_bounds products category p hp hprice
  have hrbq : 0 ≤ 20 * ratingOf p ∧ 20 * ratingOf p ≤ 100 := by
    unfold ratingOf
    cases hre : p.rating_estimate with
    | none => norm_num
    | some r =>
      obtain ⟨h0, h1⟩ := hrating p hp r hre
      simp only [Option.getD_some]
      constructor <;> linarith
  have hvb := reviewScoreVal_bounds products category p hp
  have hfb := featureScore_bounds (mkEnriched category p) category
      (statsOf (enrichList products category) category).ranges
      (calculatePerformanceScore_le (processorOf (specText p.title p.specs)) category)
  have hob := ownershipScore_bounds (mkEnriched category p).warranty_years
      (mkEnriched category p).energy_star (fun n hn => henergy p hp n hn)
  have hcb := rdmComposite_bounds category hpb hrbq hfb hob hvb
  have e1 : (scoreOne (statsOf (enrichList products category) category) category
      (mkEnriched category p)).rdm_breakdown.price_score =
      round1 (priceScoreVal (statsOf (enrichList products category) category) p) := rfl
  have e2 : (scoreOne (statsOf (enrichList products category) category) category
      (mkEnriched category p)).rdm_breakdown.rating_score =
      round1 (20 * ratingOf p) := rfl
  have e3 : (scoreOne (statsOf (enrichList products category) category) category
      (mkEnriched category p)).rdm_breakdown.review_score =
      round1 (reviewScoreVal (statsOf (enrichList products category) category) p) := rfl
  have e4 : (scoreOne (statsOf (enrichList products category) category) category
      (mkEnriched category p)).rdm_breakdown.feature_score =
      round1 (featureScore (mkEnriched category p) category
        (statsOf (enrichList products category) category).ranges) := rfl
  have e5 : (scoreOne (statsOf (enrichList products category) category) category
      (mkEnriched category p)).rdm_breakdown.ownership_score =
      round1 (ownershipScore (mkEnriched category p).warranty_years
        (mkEnriched category p).energy_star) := rfl
  have e6 : (scoreOne (statsOf (enrichList products category) category) category
      (mkEnriched category p)).rdm_score =
      round1 (rdmComposite category
        (priceScoreVal (statsOf (enrichList products category) category) p)
        (20 * ratingOf p)
        (featureScore (mkEnriched category p) category
          (statsOf (enrichList products category) category).ranges)
        (ownershipScore (mkEnriched category p).warranty_years
          (mkEnriched category p).energy_star)
        (reviewScoreVal (statsOf (enrichList products category) category) p)) := rfl
  rw [e1, e2, e3, e4, e5, e6]
  exact ⟨round1_bounds hpb.1 hpb.2, round1_bounds hrbq.1 hrbq.2,
         round1_bounds hvb.1 hvb.2, round1_bounds hfb.1 hfb.2,
         round1_bounds hob.1 hob.2, round1_bounds hcb.1 hcb.2⟩

/-- A candidate with no price at all (`price_raw = 0`). -/
def c6CexProduct : ProductIn :=
  { title := "", specs := [], price_raw := 0,
    rating_estimate := none, rating_count_estimate := none }

/-- Claim C6, counterexample: a single unpriced candidate gets the price
sub-score 200 — its zero price is excluded from the range (defaulted to
(1, 2)) yet still plugged into the formula — so not every sub-score lies
in [0, 100]. -/
theorem c6_counterexample :
    ((calculateRdmScores [c6CexProduct] "product").map
      fun q => q.rdm_breakdown.price_score) = [200] ∧
    ¬ ((200 : ℚ) ≤ 100) := by
  constructor
  · decide
  · norm_num

/-- A well-scaled candidate used to witness `c6_amended`. -/
def c6WitProduct : ProductIn :=
  { title := "", specs := [], price_raw := 129900,
    rating_estimate := none, rating_count_estimate := none }

/-- Witness for `c6_amended` at a concrete one-element input. -/
theorem c6_amended_witness :
    (0 : ℤ) < 129900 ∧
    ∀ q ∈ calculateRdmScores [c6WitProduct] "laptop",
      (0 ≤ q.rdm_breakdown.price_score ∧ q.rdm_breakdown.price_score ≤ 100) ∧
      (0 ≤ q.rdm_breakdown.rating_score ∧ q.rdm_breakdown.rating_score ≤ 100) ∧
      (0 ≤ q.rdm_breakdown.review_score ∧ q.rdm_breakdown.review_score ≤ 100) ∧
      (0 ≤ q.rdm_breakdown.feature_score ∧ q.rdm_breakdown.feature_score ≤ 100) ∧
      (0 ≤ q.rdm_breakdown.ownership_score ∧ q.rdm_breakdown.ownership_score ≤ 100) ∧
      (0 ≤ q.rdm_score ∧ q.rdm_score ≤ 100) :=
  ⟨by decide,
   c6_amended [c6WitProduct] "laptop"
     (by decide)
     (by
       intro p hp r hre
       rw [List.mem_singleton] at hp
       subst hp
       simp [c6WitProduct] at hre)
     (by
       intro p hp n hn
       rw [List.mem_singleton] at hp
       subst hp
       rw [show (extractDetailedSpecs c6WitProduct.title c6WitProduct.specs
           "laptop").energy_star = none by decide] at hn
       cases hn)⟩

/-- Claim C10: the engine returns one scored entry per input product (a
permutation of the per-product scoring map — nothing dropped, nothing
duplicated), sorted by non-increasing `rdm_score`, and the empty input
yields the empty output. -/
theorem c10_shape (products : List ProductIn) (category : String) :
    (calculateRdmScores products category).length = products.length ∧
    (calculateRdmScores products category).Perm
      ((enrichList products category).map
        (scoreOne (statsOf (enrichList products category) category) category)) ∧
    List.Sorted (fun a b => b.rdm_score ≤ a.rdm_score)
      (calculateRdmScores products category) ∧
    (products = [] → calculateRdmScores products category = []) := by
  cases products with
  | nil =>
    refine ⟨rfl, ?_, ?_, fun _ => rfl⟩
    · simp [calculateRdmScores, enrichList]
    · simp [calculateRdmScores]
  | cons p ps =>
    have hperm : (calculateRdmScores (p :: ps) category).Perm
        ((enrichList (p :: ps) category).map
          (scoreOne (statsOf (enrichList (p :: ps) category) category) category)) := by
      simp only [calculateRdmScores]
      exact List.perm_insertionSort _ _
    refine ⟨?_, hperm, ?_, by intro h; cases h⟩
    · rw [hperm.length_eq, List.length_map]
      simp [enrichList]
    · simp only [calculateRdmScores]
      haveI : IsTotal Scored (fun a b => b.rdm_score ≤ a.rdm_score) :=
        ⟨fun a b => le_total _ _⟩
      haveI : IsTrans Scored (fun a b => b.rdm_score ≤ a.rdm_score) :=
        ⟨fun a b c h1 h2 => le_trans h2 h1⟩
      exact List.sorted_insertionSort _ _

/-- Witness for `c10_shape`: the empty input yields the empty output. -/
theorem c10_shape_witness : calculateRdmScores [] "laptop" = [] :=
  (c10_shape [] "laptop").2.2.2 rfl

/-! ### Quality filter (`main.py`, `get_recommendations`, lines 1253–1324)

The fields of the built `Product` that the filter reads. -/

/-- A built alternative, restricted to the fields the quality filter reads. -/
structure AltProduct where
  title : String
  image_url : String
  price_raw : ℤ
  source_url : String
deriving Repr, DecidableEq

/-- `has_image = bool(alt.image_url and alt.image_url != "")` (line 1284):
for a string both conjuncts are the same test. -/
def hasImage (a : AltProduct) : Bool := a.image_url != ""

/-- `has_price = bool(alt.price_raw > 0)` (line 1285). -/
def hasPrice (a : AltProduct) : Bool := decide (0 < a.price_raw)

/-- The 0–4 quality score (lines 1255–1280): price, non-generic title,
direct (non-search) URL, image. -/
def qualityScore (a : AltProduct) : ℕ :=
  (if 0 < a.price_raw then 1 else 0) +
  (if strContains (lowerStr a.title) "generic" then 0 else 1) +
  (if strContains a.source_url "/s?k=" || strContains a.source_url "/search?" then 0 else 1) +
  (if a.image_url != "" then 1 else 0)

/-- The acceptance decision (lines 1287–1295). -/
def shouldKeep (a : AltProduct) : Bool :=
  if hasImage a && hasPrice a then true
  else if (hasImage a || hasPrice a) && decide (2 ≤ qualityScore a) then true
  else false

/-- Claim C7: the filter keeps a candidate iff (image ∧ price) ∨
((image ∨ price) ∧ quality-score ≥ 2); the score is at most 4; and a
candidate with both image and price is always kept. -/
theorem c7_quality_filter (a : AltProduct) :
    (shouldKeep a = true ↔
      ((hasImage a = true ∧ hasPrice a = true) ∨
       ((hasImage a = true ∨ hasPrice a = true) ∧ 2 ≤ qualityScore a))) ∧
    qualityScore a ≤ 4 ∧
    (hasImage a = true → hasPrice a = true → shouldKeep a = true) := by
  refine ⟨?_, ?_, ?_⟩
  · cases hI : hasImage a <;> cases hP : hasPrice a <;>
      simp [shouldKeep, hI, hP]
  · unfold qualityScore
    split_ifs <;> norm_num
  · intro hI hP
    simp [shouldKeep, hI, hP]

/-- A complete candidate: image and price present. -/
def c7WitAlt : AltProduct :=
  { title := "HP Pavilion 15", image_url := "https://img.example/p.jpg",
    price_raw := 5499900, source_url := "https://www.amazon.in/dp/B0TEST0001" }

/-- Witness for `c7_quality_filter`: the image-and-price candidate is kept. -/
theorem c7_quality_filter_witness : shouldKeep c7WitAlt = true :=
  (c7_quality_filter c7WitAlt).2.2 (by decide) (by decide)

/-! ### Post-filter stage (`main.py` 1305–1324) -/

/-- The `ValueError` message raised when no candidate survives (lines
1306–1313), carrying the found and discarded counts. -/
def validationErrorMsg (found discarded : ℕ) : String :=
  "Could not find enough valid product alternatives. " ++
  "Found " ++ toString found ++ " valid products, filtered out " ++
  toString discarded ++ ". Need at least 1 product. " ++
  "This may be due to ScraperAPI limits, timeouts, or poor search results."

/-- Warning emitted when fewer than 3 alternatives survive (line 1319). -/
def onlyWarning (n : ℕ) : String := "Only " ++ toString n ++ " alternatives found"

/-- Warning emitted when candidates were discarded (line 1321). -/
def filteredWarning (k : ℕ) : String :=
  "Filtered out " ++ toString k ++ " low-quality results"

/-- The filter loop plus the post-filter checks (`main.py` 1250–1324):
survivors in order, the `ValueError` when none survive (the only raise in
this stage), and the warnings list. -/
def postFilter (alts : List AltProduct) : Except String (List AltProduct × List String) :=
  let valid := alts.filter shouldKeep
  let filteredCount := (alts.filter fun a => !shouldKeep a).length
  if valid.length < 1 then
    .error (validationErrorMsg valid.length filteredCount)
  else
    let warnings :=
      (if valid.length < 3 then [onlyWarning valid.length] else []) ++
      (if 0 < filteredCount then [filteredWarning filteredCount] else [])
    .ok (valid, warnings)

/-- Claim C9: the stage errors exactly when zero candidates survive, with
a message naming the found (0) and discarded counts — the only error the
stage can produce; on success, a below-3 survivor count and a nonzero
discard count each contribute their warning. -/
theorem c9_postfilter (alts : List AltProduct) :
    (postFilter alts =
        .error (validationErrorMsg 0 ((alts.filter fun a => !shouldKeep a).length)) ↔
      alts.filter shouldKeep = []) ∧
    ∀ kept warns, postFilter alts = .ok (kept, warns) →
      kept = alts.filter shouldKeep ∧ kept ≠ [] ∧
      (kept.length < 3 → onlyWarning kept.length ∈ warns) ∧
      (0 < (alts.filter fun a => !shouldKeep a).length →
        filteredWarning ((alts.filter fun a => !shouldKeep a).length) ∈ warns) := by
  unfold postFilter
  by_cases h : (alts.filter shouldKeep).length < 1
  · have hnil : alts.filter shouldKeep = [] := by
      cases hh : alts.filter shouldKeep with
      | nil => rfl
      | cons x xs => rw [hh] at h; simp at h
    rw [if_pos h]
    constructor
    · rw [hnil]
      simp
    · intro kept warns hcontra
      cases hcontra
  · rw [if_neg h]
    constructor
    · constructor
      · intro hcontra
        cases hcontra
      · intro hnil
        rw [hnil] at h
        simp at h
    · intro kept warns hok
      injection hok with hok
      injection hok with h1 h2
      subst h1
      subst h2
      refine ⟨rfl, ?_, ?_, ?_⟩
      · intro hnil
        rw [hnil] at h
        simp at h
      · intro h3
        rw [if_pos h3]
        simp
      · intro hf
        rw [if_pos hf]
        simp

/-- A kept candidate for the C9 witness. -/
def c9WitGood : AltProduct :=
  { title := "Dell Inspiron 15", image_url := "https://img.example/d.jpg",
    price_raw := 4899900, source_url := "https://www.amazon.in/dp/B0TEST0002" }

/-- A discarded candidate: no image, no price. -/
def c9WitBad : AltProduct :=
  { title := "Mystery item", image_url := "", price_raw := 0,
    source_url := "https://www.amazon.in/s?k=mystery" }

/-- Witness for `c9_postfilter`: one survivor and one discard produce both
warnings. -/
theorem c9_postfilter_witness :
    onlyWarning 1 ∈ [onlyWarning 1, filteredWarning 1] ∧
    filteredWarning 1 ∈ [onlyWarning 1, filteredWarning 1] :=
  have h := (c9_postfilter [c9WitGood, c9WitBad]).2 [c9WitGood]
    [onlyWarning 1, filteredWarning 1] rfl
  ⟨h.2.2.1 (by decide), h.2.2.2 (by decide)⟩

/-! ### Candidate-name generation (`main.py` 759–775 and 937–1064)

`call_llm_for_product_names` raises on provider failure, but its caller in
`get_recommendations` catches every exception and substitutes a static
fallback list, so the stage as a whole is total — modelled here as a total
function over the three outcome classes. -/

/-- Outcome of the provider call as the caller's except-chain classifies it:
a parsed name list, a quota/rate-limit error, or any other error. -/
inductive LlmOutcome where
  | ok (parsed : List String)
  | errQuota
  | errOther
deriving Repr, DecidableEq

/-- The synthetic placeholder `f"Alternative {category} {len+1}"`. -/
def altName (category : String) (n : ℕ) : String :=
  "Alternative " ++ category ++ " " ++ toString n

/-- The `while len < 3` padding loop (`main.py` 764–766 and 1048–1049):
each appended name uses the length at the time of appending. -/
def padTo3 (category : String) (names : List String) : List String :=
  match names with
  | [] => [altName category 1, altName category 2, altName category 3]
  | [a] => [a, altName category 2, altName category 3]
  | [a, b] => [a, b, altName category 3]
  | l => l

/-- `if len > 6: take 6` (`main.py` 768–769). -/
def truncate6 (names : List String) : List String :=
  if 6 < names.length then names.take 6 else names

/-- The name list `call_llm_for_product_names` returns on success
(lines 759–775): the parsed list padded to 3 and truncated to 6. -/
def callLlmNames (category : String) (parsed : List String) : List String :=
  truncate6 (padTo3 category parsed)

/-- The static quota fallback (`main.py` 962–1021): category detected with
a reduced keyword set, then a fixed six-name list (or five generic names). -/
def quotaFallback (title : String) : String × List String :=
  let t := lowerStr title
  if anyKw t ["tablet", "ipad", "pad"] ||
     (anyKw t ["tab"] && anyKw t ["idea", "galaxy", "lenovo", "xiaomi", "samsung"]) then
    ("tablet", ["Samsung Galaxy Tab A9", "Lenovo Tab M10", "Xiaomi Pad 6",
                "Realme Pad 2", "Apple iPad 10th Gen", "OnePlus Pad"])
  else if anyKw t ["laptop", "notebook"] then
    ("laptop", ["HP Pavilion 15", "Dell Inspiron 15", "Lenovo IdeaPad 3",
                "ASUS VivoBook 15", "Acer Aspire 5", "MSI Modern 15"])
  else if anyKw t ["phone", "smartphone", "mobile"] then
    ("smartphone", ["Samsung Galaxy A54", "OnePlus Nord 3", "Xiaomi Redmi Note 13",
                    "Realme 12 Pro", "Vivo V29", "OPPO Reno 11"])
  else if anyKw t ["speaker", "soundbar"] then
    ("speaker", ["JBL Flip 6", "Sony SRS-XB100", "boAt Stone 1200",
                 "Bose SoundLink Flex", "Mivi Roam 2", "Ultimate Ears WONDERBOOM 3"])
  else
    ("product", [title ++ " Alternative 1", title ++ " Alternative 2",
                 title ++ " Alternative 3", title ++ " Alternative 4",
                 title ++ " Alternative 5"])

/-- The basic non-quota fallback (`main.py` 1031–1039). -/
def basicFallback (title : String) : String × List String :=
  let t := lowerStr title
  if anyKw t ["laptop", "notebook"] then
    ("laptop", ["HP Pavilion 15", "Dell Inspiron 15", "Lenovo IdeaPad 3"])
  else if anyKw t ["tablet", "ipad", "pad"] then
    ("tablet", ["Samsung Galaxy Tab A9", "Lenovo Tab M10", "Xiaomi Pad 6"])
  else
    ("product", [title ++ " Alternative 1", title ++ " Alternative 2",
                 title ++ " Alternative 3"])

/-- The caller's final slicing (`main.py` 1043–1064): `num_products`
computed before the re-padding, then `product_names[:num_products]`. -/
def sliceNames (category : String) (names : List String) : List String :=
  let num := min names.length 6
  let names := if num < 3 then padTo3 category names else names
  names.take num

/-- The candidate-name generation stage: success path through
`call_llm_for_product_names`, quota and basic fallbacks on exception, then
the caller's slice.  Totality of this function is the "never raises to the
pipeline caller" half of claim C8. -/
def candidateNames (title : String) (o : LlmOutcome) : List String :=
  match o with
  | .ok parsed => sliceNames (categoryOfTitle title) (callLlmNames (categoryOfTitle title) parsed)
  | .errQuota => sliceNames (quotaFallback title).1 (quotaFallback title).2
  | .errOther => sliceNames (basicFallback title).1 (basicFallback title).2

theorem padTo3_ge3 (category : String) (l : List String) : 3 ≤ (padTo3 category l).length := by
  rcases l with _ | ⟨a, _ | ⟨b, _ | ⟨c, t⟩⟩⟩ <;> simp [padTo3]

theorem callLlmNames_bounds (category : String) (parsed : List String) :
    3 ≤ (callLlmNames category parsed).length ∧ (callLlmNames category parsed).length ≤ 6 := by
  unfold callLlmNames truncate6
  have h3 := padTo3_ge3 category parsed
  split
  · next h6 =>
    rw [List.length_take]
    omega
  · next h6 => omega

theorem sliceNames_eq (category : String) (names : List String)
    (h3 : 3 ≤ names.length) (h6 : names.length ≤ 6) :
    sliceNames category names = names := by
  simp only [sliceNames]
  rw [min_eq_left h6, if_neg (by omega), List.take_length]

/-- Claim C8: for every provider outcome — parsed list of any size, quota
exhaustion, or any other failure — the generation stage yields between 3
and 6 names inclusive (padding below 3, truncating above 6, or
substituting the static per-category fallback), and, being a total
function, never raises to the pipeline caller. -/
theorem c8_name_bounds (title : String) (o : LlmOutcome) :
    3 ≤ (candidateNames title o).length ∧ (candidateNames title o).length ≤ 6 := by
  cases o with
  | ok parsed =>
    obtain ⟨h3, h6⟩ := callLlmNames_bounds (categoryOfTitle title) parsed
    simp only [candidateNames]
    rw [sliceNames_eq _ _ h3 h6]
    exact ⟨h3, h6⟩
  | errQuota =>
    simp only [candidateNames, quotaFallback]
    split_ifs <;> (rw [sliceNames_eq] <;> simp)
  | errOther =>
    simp only [candidateNames, basicFallback]
    split_ifs <;> (rw [sliceNames_eq] <;> simp)

/-- Witness for `c8_name_bounds` is not required (no hypotheses), but the
edge cases are pinned concretely: an empty parse is padded to three
placeholders, an oversized parse is truncated to six, and a total outage
on a laptop title yields the six-name static list. -/
theorem c8_concrete_edges :
    candidateNames "some gadget" (.ok []) =
      [altName "product" 1, altName "product" 2, altName "product" 3] ∧
    (candidateNames "some gadget"
      (.ok ["n1", "n2", "n3", "n4", "n5", "n6", "n7", "n8"])).length = 6 ∧
    candidateNames "HP laptop 15" .errQuota =
      ["HP Pavilion 15", "Dell Inspiron 15", "Lenovo IdeaPad 3",
       "ASUS VivoBook 15", "Acer Aspire 5", "MSI Modern 15"] := by
  refine ⟨?_, ?_, ?_⟩ <;> decide

/-! ### Retry policy with credential fallback
(`main.py`, `retry_gemini_with_backoff`, lines 553–612)

One provider call per loop iteration; the error classes the except-block
distinguishes (`is_503`, `is_quota`, other) are modelled as disjoint
outcome kinds.  The simulator records every sleep performed, so "retries
immediately" is visible as an unchanged sleep list. -/

/-- Result of a single `generate_content` call, as classified by the
except-block (lines 580–583). -/
inductive CallResult where
  | ok
  | e503
  | quota
  | other
deriving Repr, DecidableEq

/-- Outcome of the whole retry loop: a response (with the key index it was
obtained under), a re-raised error, or the final "Max retries reached"
raise of line 612 (unreachable when `max_retries ≥ 1`). -/
inductive RetryOutcome where
  | success (keyIdx : ℕ) (sleeps : List ℕ)
  | raised (err : CallResult) (sleeps : List ℕ)
  | exhausted (sleeps : List ℕ)
deriving Repr, DecidableEq

/-- The `for attempt in range(max_retries)` loop (lines 567–609).
`remaining` counts iterations left (so `attempt = maxRetries - remaining`);
`outcomes callIdx` is the result of the `callIdx`-th provider call. -/
def retryGo (numKeys baseDelay : ℕ) (outcomes : ℕ → CallResult) (maxRetries : ℕ) :
    ℕ → ℕ → ℕ → List ℕ → RetryOutcome
  | 0, _, _, sleeps => .exhausted sleeps
  | remaining + 1, callIdx, keyIdx, sleeps =>
    match outcomes callIdx with
    | .ok => .success keyIdx sleeps
    | .quota =>
      -- `if is_quota and current_key_index < len(GEMINI_API_KEYS) - 1:` →
      -- rotate and `continue`, which still advances the loop counter
      if keyIdx < numKeys - 1 then
        retryGo numKeys baseDelay outcomes maxRetries remaining (callIdx + 1) (keyIdx + 1) sleeps
      else
        .raised .quota sleeps       -- `if not is_503 or is_last_attempt: raise`
    | .e503 =>
      if remaining = 0 then         -- is_last_attempt
        .raised .e503 sleeps
      else
        retryGo numKeys baseDelay outcomes maxRetries remaining (callIdx + 1) keyIdx
          (sleeps ++ [baseDelay * 2 ^ (maxRetries - (remaining + 1))])
    | .other => .raised .other sleeps

/-- `retry_gemini_with_backoff(max_retries, base_delay)` started from key
index 0 (a fresh pool; the module keeps `current_key_index` global, which
does not affect this claim). -/
def retryGemini (numKeys maxRetries baseDelay : ℕ) (outcomes : ℕ → CallResult) :
    RetryOutcome :=
  retryGo numKeys baseDelay outcomes maxRetries maxRetries 0 0 []

/-- Modelled from the spec: the §4.3 retry policy in which a quota signal
"advances the current index to the next credential (if any remain) and
retries immediately without consuming a backoff attempt".  Identical to
`retryGo` except that the quota-rotation branch keeps `remaining` intact;
the extra `fuel` argument (spent on every call) only justifies
termination. -/
def specRetryGo (numKeys baseDelay : ℕ) (outcomes : ℕ → CallResult) (maxRetries : ℕ) :
    ℕ → ℕ → ℕ → ℕ → List ℕ → RetryOutcome
  | 0, _, _, _, sleeps => .exhausted sleeps
  | _ + 1, 0, _, _, sleeps => .exhausted sleeps
  | fuel + 1, remaining + 1, callIdx, keyIdx, sleeps =>
    match outcomes callIdx with
    | .ok => .success keyIdx sleeps
    | .quota =>
      if keyIdx < numKeys - 1 then
        specRetryGo numKeys baseDelay outcomes maxRetries fuel (remaining + 1)
          (callIdx + 1) (keyIdx + 1) sleeps
      else
        .raised .quota sleeps
    | .e503 =>
      if remaining = 0 then
        .raised .e503 sleeps
      else
        specRetryGo numKeys baseDelay outcomes maxRetries fuel remaining (callIdx + 1) keyIdx
          (sleeps ++ [baseDelay * 2 ^ (maxRetries - (remaining + 1))])
    | .other => .raised .other sleeps

/-- Modelled from the spec: the policy of §4.3 run to completion (the fuel
`maxRetries + numKeys` covers every backoff attempt plus every rotation). -/
def specRetryPolicy (numKeys maxRetries baseDelay : ℕ) (outcomes : ℕ → CallResult) :
    RetryOutcome :=
  specRetryGo numKeys baseDelay outcomes maxRetries (maxRetries + numKeys) maxRetries 0 0 []

/-- Call sequence: quota on the first call, overload on the next two,
success on the fourth. -/
def c5Outcomes : ℕ → CallResult
  | 0 => .quota
  | 1 => .e503
  | 2 => .e503
  | _ => .ok

/-- Claim C5, counterexample: with 2 credentials, 3 capped attempts and
base delay 2, the call sequence quota, 503, 503, ok makes the code raise
after a single backoff sleep — the quota rotation consumed one of the
three loop attempts — whereas the spec's policy (rotation free of charge)
reaches the fourth call and succeeds after two backoff sleeps. -/
theorem c5_counterexample :
    retryGemini 2 3 2 c5Outcomes = .raised .e503 [4] ∧
    specRetryPolicy 2 3 2 c5Outcomes = .success 1 [2, 4] ∧
    retryGemini 2 3 2 c5Outcomes ≠ specRetryPolicy 2 3 2 c5Outcomes := by
  refine ⟨rfl, rfl, ?_⟩
  decide

/-- Claim C5, amended: on a quota signal with a further credential
remaining, the policy advances the credential index and retries
immediately — no sleep is recorded for the transition — but the retry
does consume one of the capped attempts: the loop continues with
`remaining` decremented, exactly as for a backoff retry, so the attempt
counter is not reserved for transient/overload retries. -/
theorem c5_amended (numKeys baseDelay maxRetries remaining callIdx keyIdx : ℕ)
    (sleeps : List ℕ) (outcomes : ℕ → CallResult)
    (hq : outcomes callIdx = .quota) (hk : keyIdx < numKeys - 1) :
    retryGo numKeys baseDelay outcomes maxRetries (remaining + 1) callIdx keyIdx sleeps =
      retryGo numKeys baseDelay outcomes maxRetries remaining (callIdx + 1) (keyIdx + 1)
        sleeps := by
  rw [retryGo, hq]
  rw [if_pos hk]

/-- Witness for `c5_amended` at the concrete counterexample state. -/
theorem c5_amended_witness :
    c5Outcomes 0 = .quota ∧ 0 < 2 - 1 ∧
    retryGo 2 2 c5Outcomes 3 3 0 0 [] = retryGo 2 2 c5Outcomes 3 2 1 1 [] :=
  ⟨rfl, by decide, c5_amended 2 2 3 2 0 0 [] c5Outcomes rfl (by decide)⟩

/-! ### Tolerant structured-output parsing (`main.py` 687–756)

A recursive-descent model of `json.loads` (objects, arrays, strings with
the standard single-character escapes, booleans, null, integer numbers;
`\uXXXX` escapes and float syntax do not occur in any input considered
here), followed by the call site's three-step repair: direct parse, scan
for a depth-zero closing brace, then brace-count completion. -/

/-- The double-quote character. -/
def quoteChar : Char := Char.ofNat 34

/-- JSON insignificant whitespace (space, tab, newline, carriage return). -/
def jsonWs (c : Char) : Bool := c == ' ' || c == '\t' || c == '\n' || c == '\x0d'

/-- Skip JSON whitespace. -/
def skipWs (l : List Char) : List Char := l.dropWhile jsonWs

/-- Parse the remainder of a string literal (after the opening quote);
`json.loads` in default strict mode rejects raw control characters and
unknown escapes. -/
def parseStringAux : List Char → List Char → Option (String × List Char)
  | _, [] => none
  | acc, c :: t =>
    if c == quoteChar then some (String.mk acc.reverse, t)
    else if c == '\\' then
      match t with
      | [] => none
      | e :: t2 =>
        if e == quoteChar then parseStringAux (quoteChar :: acc) t2
        else if e == '\\' then parseStringAux ('\\' :: acc) t2
        else if e == '/' then parseStringAux ('/' :: acc) t2
        else if e == 'b' then parseStringAux ('\x08' :: acc) t2
        else if e == 'f' then parseStringAux ('\x0c' :: acc) t2
        else if e == 'n' then parseStringAux ('\n' :: acc) t2
        else if e == 'r' then parseStringAux ('\x0d' :: acc) t2
        else if e == 't' then parseStringAux ('\t' :: acc) t2
        else none
    else if c.toNat < 32 then none
    else parseStringAux (c :: acc) t

/-- JSON values. -/
inductive Json where
  | null
  | bool (b : Bool)
  | num (n : ℤ)
  | str (s : String)
  | arr (elems : List Json)
  | obj (fields : List (String × Json))
deriving Repr

mutual

/-- Parse one JSON value (leading whitespace allowed); the fuel bounds the
recursion depth and one unit is spent per grammar production, so any fuel
above the input length is enough. -/
def parseValue : ℕ → List Char → Option (Json × List Char)
  | 0, _ => none
  | fuel + 1, l =>
    match skipWs l with
    | [] => none
    | c :: t =>
      if c == '\x7b' then
        match skipWs t with
        | c2 :: t2 =>
          if c2 == '\x7d' then some (.obj [], t2)
          else parseMembers fuel (c2 :: t2) []
        | [] => none
      else if c == '[' then
        match skipWs t with
        | c2 :: t2 =>
          if c2 == ']' then some (.arr [], t2)
          else parseElems fuel (c2 :: t2) []
        | [] => none
      else if c == quoteChar then
        match parseStringAux [] t with
        | some (s, r) => some (.str s, r)
        | none => none
      else if c == 't' then
        match litAt "rue".data t with
        | some r => some (.bool true, r)
        | none => none
      else if c == 'f' then
        match litAt "alse".data t with
        | some r => some (.bool false, r)
        | none => none
      else if c == 'n' then
        match litAt "ull".data t with
        | some r => some (.null, r)
        | none => none
      else if c == '-' then
        match digitsPlus t with
        | some (d, r) => some (.num (-(natOfDigits d : ℤ)), r)
        | none => none
      else if c.isDigit then
        match digitsPlus (c :: t) with
        | some (d, r) => some (.num ((natOfDigits d : ℤ)), r)
        | none => none
      else none

/-- Parse the members of an object, positioned at the first key. -/
def parseMembers : ℕ → List Char → List (String × Json) →
    Option (Json × List Char)
  | 0, _, _ => none
  | fuel + 1, l, acc =>
    match skipWs l with
    | c :: t =>
      if c == quoteChar then
        match parseStringAux [] t with
        | some (key, r1) =>
          match skipWs r1 with
          | c2 :: t2 =>
            if c2 == ':' then
              match parseValue fuel t2 with
              | some (v, r2) =>
                match skipWs r2 with
                | c3 :: t3 =>
                  if c3 == ',' then parseMembers fuel t3 (acc ++ [(key, v)])
                  else if c3 == '\x7d' then some (.obj (acc ++ [(key, v)]), t3)
                  else none
                | [] => none
              | none => none
            else none
          | [] => none
        | none => none
      else none
    | [] => none

/-- Parse the elements of an array, positioned at the first element. -/
def parseElems : ℕ → List Char → List Json → Option (Json × List Char)
  | 0, _, _ => none
  | fuel + 1, l, acc =>
    match parseValue fuel l with
    | some (v, r) =>
      match skipWs r with
      | c :: t =>
        if c == ',' then parseElems fuel t (acc ++ [v])
        else if c == ']' then some (.arr (acc ++ [v]), t)
        else none
      | [] => none
    | none => none

end

/-- `json.loads`: a full parse of the text, trailing whitespace only. -/
def jsonLoads (s : String) : Option Json :=
  match parseValue (s.data.length + 1) s.data with
  | some (v, rest) => if (skipWs rest).isEmpty then some v else none
  | none => none

/-- The rest of `hay` after the first occurrence of `needle`, if any
(`str.find` forward scan). -/
def afterFirst (needle : List Char) : List Char → Option (List Char)
  | [] => litAt needle []
  | c :: t =>
    match litAt needle (c :: t) with
    | some r => some r
    | none => afterFirst needle t

/-- `re.sub(r'```\s*$', '', s)`: remove one trailing code fence together
with the whitespace that follows it. -/
def stripTrailingFence (l : List Char) : List Char :=
  let revNoWs := l.reverse.dropWhile Char.isWhitespace
  match litAt "```".data revNoWs with
  | some rest => rest.reverse
  | none => l

/-- The fence/brace extraction (`main.py` 691–703): the contents after a
code fence (closing fence optional), else the text from the first opening
brace, else the whole text. -/
def extractJsonText (text : String) : String :=
  match afterFirst "```".data text.data with
  | some rest =>
    let rest :=
      match litAt "json".data rest with
      | some r => r
      | none => rest
    let rest := rest.dropWhile Char.isWhitespace
    let jt := stripWs rest
    String.mk (stripWs (stripTrailingFence jt))
  | none =>
    match afterFirst ['\x7b'] text.data with
    | some rest => String.mk ('\x7b' :: rest)
    | none => text

/-- The depth scan of lines 714–731: starting at the first opening brace,
track brace depth (string contents included, exactly as the source does);
at every closing brace that returns the depth to zero, try to parse the
prefix; the first success wins. -/
def depthGo : List Char → List Char → ℤ → Option Json
  | [], _, _ => none
  | c :: t, acc, depth =>
    if c == '\x7b' then depthGo t (c :: acc) (depth + 1)
    else if c == '\x7d' then
      if depth - 1 = 0 then
        match jsonLoads (String.mk (c :: acc).reverse) with
        | some v => some v
        | none => depthGo t (c :: acc) (depth - 1)
      else depthGo t (c :: acc) (depth - 1)
    else depthGo t (c :: acc) depth

/-- `s.count(c)`. -/
def countChar (c : Char) (l : List Char) : ℕ := (l.filter fun x => x == c).length

/-- The tolerant structured-output parser (`main.py` 687–756): extract the
JSON-ish text, try a direct parse, then the complete-root-object scan,
then the brace completion — which appends one `]` only when the text
contains the literal key fragment `"alternatives": [` with unbalanced
square brackets, and then one `closing brace` per missing brace.  `none`
models the `ValueError` of line 756. -/
def tolerantParse (text : String) : Option Json :=
  let jt := (extractJsonText text).data
  match jsonLoads (String.mk jt) with
  | some v => some v
  | none =>
    let step2 :=
      match afterFirst ['\x7b'] jt with
      | some rest => depthGo ('\x7b' :: rest) [] 0
      | none => none
    match step2 with
    | some v => some v
    | none =>
      let openB := countChar '\x7b' jt
      let closeB := countChar '\x7d' jt
      if closeB < openB then
        let completed :=
          jt ++
          (if containsSub "\"alternatives\": [".data jt &&
              decide (countChar ']' jt < countChar '[' jt)
           then [']'] else []) ++
          List.replicate (openB - closeB) '\x7d'
        jsonLoads (String.mk completed)
      else none

/-- A provider response truncated in the middle of the `product_names`
array (the shape the generator's prompt asks for). -/
def c4TruncatedProductNames : String := "\x7b\"product_names\": [\"A\", \"B\""

/-- The same truncation for the legacy `alternatives` shape. -/
def c4TruncatedAlternatives : String := "\x7b\"alternatives\": [\"A\", \"B\""

/-- Claim C4, counterexample: a response truncated mid-array in the
`product_names` shape is NOT recovered — the repair appends only closing
braces (never `]`, which is reserved for the `"alternatives": [` key
fragment), the completed text stays unparseable, and the parser fails
(the `ValueError` of line 756). -/
theorem c4_counterexample : tolerantParse c4TruncatedProductNames = none := by rfl

/-- Claim C4, amended: the minimal-closing-sequence repair recovers a
truncated array only in the `"alternatives": [` shape (and only when
truncation falls after a complete string literal): there the appended
`]` plus brace yield a valid object.  The equally-truncated
`product_names` response — the shape this code path actually requests —
fails with a parse error instead (see the counterexample). -/
theorem c4_amended :
    tolerantParse c4TruncatedAlternatives =
      some (Json.obj [("alternatives", Json.arr [Json.str "A", Json.str "B"])]) := by rfl

end Ecommerce
